import Mathlib

/-!
# Battle game: server-side melee attack sequencing

A shallow embedding of `Source/BattleGame/BattleGameCharacter.cpp`:
`TakeDamage`, `TraceForOpponent`, `SeekAndApplyDamage` and
`Server_Attack_Implementation`, together with the two timer lambdas the
attack installs.

Modelling conventions.

* `float` members (health, damage, durations, coordinates) take rational
  values; infinities and NaN are outside the model. Comparisons of floats
  are exact. The one arithmetic step on a member, `Health -= DamageToApply`,
  is the `float` subtraction of the platform, a parameter (`FloatSub`) that
  need not equal the exact difference.
* `this` is a character index (`CharId`); the object store of the world
  maps every index to the members of that character.
* The engine services the file calls are the environment. The physics
  query `LineTraceSingleByObjectType` and the inherited `Super::TakeDamage`
  are parameters (`Engine`). The timer manager is modelled by the part of
  its contract the file relies on: `SetTimer` clears the timer the handle
  names, and either schedules a fresh single-shot timer (positive rate) or
  invalidates the handle (rate zero or less, the case the source comments
  "would never be called"); a tick advances the clock and fires the timers
  whose expiry lies strictly before the new time, earliest first. The two
  lambdas of this file never call the timer manager, so the expired timers
  are taken out of the pending list before their lambdas run.
* Destruction of actors is engine code and is not modelled: the file has
  no destruction hook to embed, and the store keeps every object.
* Every call that the claims speak about is recorded, in call order, in
  the `Log` of the world: `SetTimer`, the line trace, `TakeDamage`, and the
  two multicast notifications.
-/

namespace BattleGame

/-- Identity of an `ABattleGameCharacter` object (the `this` pointer). -/
abbrev CharId := Nat

/-- Engine vector of three `float` components. -/
structure FVector where
  X : ℚ
  Y : ℚ
  Z : ℚ
deriving DecidableEq

namespace FVector

/-- Component-wise sum, `operator+`. -/
def add (a b : FVector) : FVector := ⟨a.X + b.X, a.Y + b.Y, a.Z + b.Z⟩

/-- Scaling by a scalar, `operator*=`. -/
def scale (a : FVector) (s : ℚ) : FVector := ⟨a.X * s, a.Y * s, a.Z * s⟩

/-- Squared length of the vector. -/
def SizeSquared (a : FVector) : ℚ := a.X * a.X + a.Y * a.Y + a.Z * a.Z

/-- Squared horizontal distance between two points. -/
def DistSquaredXY (a b : FVector) : ℚ :=
  (b.X - a.X) * (b.X - a.X) + (b.Y - a.Y) * (b.Y - a.Y)

end FVector

/-- Actors a pawn trace can report: a battle character, or some other pawn. -/
inductive AActor where
  | BattleGameCharacter (id : CharId)
  | OtherPawn (id : Nat)
deriving DecidableEq

/-- Result of a line trace: the actor hit (a weak pointer, possibly null)
and the impact point used for presentation. -/
structure FHitResult where
  Actor : Option AActor
  ImpactPoint : FVector
deriving DecidableEq

/-- The dynamic cast `Cast<ABattleGameCharacter>(HitResult.Actor)`. -/
def Cast (a : Option AActor) : Option CharId :=
  match a with
  | some (AActor.BattleGameCharacter id) => some id
  | _ => none

/-- Timer handle: a number, zero meaning "invalid". -/
structure FTimerHandle where
  Handle : Nat
deriving DecidableEq

namespace FTimerHandle

/-- The handle names a timer, `FTimerHandle::IsValid`. -/
def IsValid (h : FTimerHandle) : Bool := h.Handle != 0

/-- The invalid handle, result of `FTimerHandle::Invalidate`. -/
def Invalidate (_h : FTimerHandle) : FTimerHandle := ⟨0⟩

end FTimerHandle

/-- Members of `ABattleGameCharacter` the attack code reads or writes.
`AttackCooldownDuration`, `ApplyAttackDamageDelay`, `AttackTimer` and
`ApplyAttackDamageTimer` are used by the `.cpp` file; their types are the
ones their uses fix (`float` compared with `0.0`, handles given to
`SetTimer`). `ActorLocation` and `ActorForwardVector` are what
`GetActorLocation()` and `GetActorForwardVector()` return. -/
structure ABattleGameCharacter where
  MaxHealth : ℚ
  Health : ℚ
  AttackAmount : ℚ
  AttackCooldownDuration : ℚ
  ApplyAttackDamageDelay : ℚ
  AttackTimer : FTimerHandle
  ApplyAttackDamageTimer : FTimerHandle
  ActorLocation : FVector
  ActorForwardVector : FVector
deriving DecidableEq

/-- The two lambdas `Server_Attack_Implementation` hands to the timer
manager; each captures `this`. -/
inductive TimerCallback where
  | InvalidateAttackTimer (self : CharId)
  | SeekAndApplyDamage (self : CharId)
deriving DecidableEq

/-- One pending single-shot timer. -/
structure FTimerData where
  Handle : FTimerHandle
  ExpireTime : ℚ
  Callback : TimerCallback
deriving DecidableEq

/-- Timer manager of the world: its clock, the pending timers in the order
they were set, and the last handle number given out. -/
structure FTimerManager where
  InternalTime : ℚ
  ActiveTimers : List FTimerData
  LastAssignedHandle : Nat
deriving DecidableEq

/-- Which handle member a `SetTimer` call was given. -/
inductive TimerName where
  | AttackTimer
  | ApplyAttackDamageTimer
deriving DecidableEq

/-- Calls recorded in the log of the world. -/
inductive Event where
  | SetTimer (self : CharId) (timer : TimerName) (InRate : ℚ)
  | LineTrace (self : CharId) (Start : FVector) (End : FVector) (IgnoreActor : CharId)
  | TakeDamage (target : CharId) (DamageAmount : ℚ)
  | OnAttackAttempted (self : CharId)
  | OnAttackSuccessful (self : CharId) (Hit : FHitResult)
deriving DecidableEq

/-- Server world: the character objects, the timer manager and the log. -/
structure UWorld where
  Characters : CharId → ABattleGameCharacter
  TimerManager : FTimerManager
  Log : List Event

/-- Environment of the character code, taken as parameters: the pawn line
trace (`none` when it reports no blocking hit), the inherited
`Super::TakeDamage`, which returns the amount of damage to apply, and the
`float` subtraction that `Health -= DamageToApply` performs. `FloatSub h d`
is the `float` nearest to `h - d`, so it may differ from `h - d`; the one
law kept is the one rounding to nearest gives on `float` operands:
subtracting an amount that is not negative never leaves more than `h`. -/
structure Engine where
  LineTraceSingleByObjectType : UWorld → FVector → FVector → CharId → Option FHitResult
  SuperTakeDamage : CharId → ℚ → Option CharId → ℚ
  FloatSub : ℚ → ℚ → ℚ
  FloatSub_le : ∀ h d : ℚ, 0 ≤ d → FloatSub h d ≤ h

namespace FTimerManager

/-- A pending timer carries this handle, `FindTimer`. -/
def FindTimer (tm : FTimerManager) (h : FTimerHandle) : Bool :=
  tm.ActiveTimers.any (fun t => t.Handle == h)

/-- Drop the pending timer of this handle, `InternalClearTimer`. -/
def InternalClearTimer (tm : FTimerManager) (h : FTimerHandle) : FTimerManager :=
  { tm with ActiveTimers := tm.ActiveTimers.filter (fun t => !(t.Handle == h)) }

/-- The single-shot `SetTimer(InOutHandle, Callback, InRate, false)`: the
timer already set under the handle is cleared; a positive rate schedules a
timer under a fresh handle, any other rate invalidates the handle. -/
def SetTimer (tm : FTimerManager) (InOutHandle : FTimerHandle) (Callback : TimerCallback)
    (InRate : ℚ) : FTimerManager × FTimerHandle :=
  let tm1 := if tm.FindTimer InOutHandle then tm.InternalClearTimer InOutHandle else tm
  if 0 < InRate then
    let NewHandle : FTimerHandle := ⟨tm1.LastAssignedHandle + 1⟩
    ({ tm1 with
        ActiveTimers := tm1.ActiveTimers ++ [⟨NewHandle, tm1.InternalTime + InRate, Callback⟩]
        LastAssignedHandle := tm1.LastAssignedHandle + 1 },
     NewHandle)
  else
    (tm1, InOutHandle.Invalidate)

end FTimerManager

/-- Append a record to the log. -/
def UWorld.emit (w : UWorld) (e : Event) : UWorld :=
  { w with Log := w.Log ++ [e] }

/-- Overwrite the members of one character. -/
def UWorld.setCharacter (w : UWorld) (id : CharId) (c : ABattleGameCharacter) : UWorld :=
  { w with Characters := Function.update w.Characters id c }

/-- Embedding of `ABattleGameCharacter::TakeDamage`: the amount the parent
class returns is subtracted from `Health`, in `float` arithmetic, and
returned. -/
def TakeDamage (E : Engine) (self : CharId) (DamageAmount : ℚ) (DamageCauser : Option CharId)
    (w : UWorld) : ℚ × UWorld :=
  let w1 := w.emit (Event.TakeDamage self DamageAmount)
  let DamageToApply := E.SuperTakeDamage self DamageAmount DamageCauser
  let c := w1.Characters self
  (DamageToApply, w1.setCharacter self { c with Health := E.FloatSub c.Health DamageToApply })

/-- Start point of the trace in `TraceForOpponent`. -/
def TraceStart (c : ABattleGameCharacter) : FVector := c.ActorLocation

/-- End point of the trace in `TraceForOpponent`: the forward vector with
`Z` set to zero, multiplied by `75`, added to the start. -/
def TraceEnd (c : ABattleGameCharacter) : FVector :=
  let ForwardProjection := c.ActorForwardVector
  let ForwardProjection := { ForwardProjection with Z := 0 }
  let ForwardProjection := ForwardProjection.scale 75
  (TraceStart c).add ForwardProjection

/-- Embedding of `ABattleGameCharacter::TraceForOpponent`: one pawn line
trace from the actor location along the flattened forward vector, ignoring
`this`. -/
def TraceForOpponent (E : Engine) (self : CharId) (w : UWorld) : Option FHitResult × UWorld :=
  let c := w.Characters self
  let Start := TraceStart c
  let End := TraceEnd c
  (E.LineTraceSingleByObjectType w Start End self, w.emit (Event.LineTrace self Start End self))

/-- Embedding of `ABattleGameCharacter::SeekAndApplyDamage`: trace, cast of
the hit actor, `TakeDamage` of the character hit with `AttackAmount`, then
the "attack successful" multicast when a character was hit. -/
def SeekAndApplyDamage (E : Engine) (self : CharId) (w : UWorld) : UWorld :=
  match TraceForOpponent E self w with
  | (some HitResult, w1) =>
    match Cast HitResult.Actor with
    | some OtherPlayer =>
      let w2 := (TakeDamage E OtherPlayer (w1.Characters self).AttackAmount (some self) w1).2
      w2.emit (Event.OnAttackSuccessful self HitResult)
    | none => w1
  | (none, w1) => w1

/-- First statement of `Server_Attack_Implementation` after the guard:
`SetTimer(AttackTimer, [this]() {AttackTimer.Invalidate();},
AttackCooldownDuration, false)`. -/
def SetAttackTimer (self : CharId) (w : UWorld) : UWorld :=
  let c := w.Characters self
  let r := w.TimerManager.SetTimer c.AttackTimer (TimerCallback.InvalidateAttackTimer self)
    c.AttackCooldownDuration
  let w1 := { w with TimerManager := r.1 }
  let w1 := w1.setCharacter self { c with AttackTimer := r.2 }
  w1.emit (Event.SetTimer self TimerName.AttackTimer c.AttackCooldownDuration)

/-- The delay computed in the delayed branch of
`Server_Attack_Implementation`:
`ApplyAttackDamageDelay < AttackCooldownDuration ? ApplyAttackDamageDelay
: AttackCooldownDuration`. -/
def AttackDelay (c : ABattleGameCharacter) : ℚ :=
  if c.ApplyAttackDamageDelay < c.AttackCooldownDuration then c.ApplyAttackDamageDelay
  else c.AttackCooldownDuration

/-- The delayed branch of `Server_Attack_Implementation`:
`SetTimer(ApplyAttackDamageTimer, [this]() {SeekAndApplyDamage();},
AttackDelay, false)`. -/
def SetApplyAttackDamageTimer (self : CharId) (w : UWorld) : UWorld :=
  let c := w.Characters self
  let r := w.TimerManager.SetTimer c.ApplyAttackDamageTimer
    (TimerCallback.SeekAndApplyDamage self) (AttackDelay c)
  let w1 := { w with TimerManager := r.1 }
  let w1 := w1.setCharacter self { c with ApplyAttackDamageTimer := r.2 }
  w1.emit (Event.SetTimer self TimerName.ApplyAttackDamageTimer (AttackDelay c))

/-- Embedding of `ABattleGameCharacter::Server_Attack_Implementation`: the
guard on `AttackTimer`, the cooldown timer, the damage timer when
`ApplyAttackDamageDelay > 0` and `SeekAndApplyDamage` at once otherwise, and
last the "attack attempted" multicast. -/
def Server_Attack_Implementation (E : Engine) (self : CharId) (w : UWorld) : UWorld :=
  if (w.Characters self).AttackTimer.IsValid then
    w
  else
    let w1 := SetAttackTimer self w
    let w2 :=
      if 0 < (w1.Characters self).ApplyAttackDamageDelay then
        SetApplyAttackDamageTimer self w1
      else
        SeekAndApplyDamage E self w1
    w2.emit (Event.OnAttackAttempted self)

/-- Run one timer lambda. -/
def TimerCallback.Execute (E : Engine) (cb : TimerCallback) (w : UWorld) : UWorld :=
  match cb with
  | TimerCallback.InvalidateAttackTimer self =>
    let c := w.Characters self
    w.setCharacter self { c with AttackTimer := c.AttackTimer.Invalidate }
  | TimerCallback.SeekAndApplyDamage self => BattleGame.SeekAndApplyDamage E self w

/-- The timers that fire once the clock reads `now`, earliest first (timers
of equal expiry in the order they were set). -/
def FTimerManager.Expired (tm : FTimerManager) (now : ℚ) : List FTimerData :=
  (tm.ActiveTimers.filter (fun t => decide (t.ExpireTime < now))).insertionSort
    (fun a b => a.ExpireTime ≤ b.ExpireTime)

/-- Model of `FTimerManager::Tick(DeltaTime)`: advance the clock, take the
timers whose expiry is strictly before the new time out of the pending list,
and run their lambdas, earliest first. -/
def Tick (E : Engine) (DeltaTime : ℚ) (w : UWorld) : UWorld :=
  let now := w.TimerManager.InternalTime + DeltaTime
  let fired := w.TimerManager.Expired now
  let tm : FTimerManager :=
    { w.TimerManager with
        InternalTime := now
        ActiveTimers := w.TimerManager.ActiveTimers.filter (fun t => !decide (t.ExpireTime < now)) }
  fired.foldl (fun w t => t.Callback.Execute E w) { w with TimerManager := tm }

/-- Operations of the server on the attack state. -/
inductive Op where
  | Server_Attack (self : CharId)
  | SeekAndApplyDamage (self : CharId)
  | TakeDamage (self : CharId) (DamageAmount : ℚ) (DamageCauser : Option CharId)
  | Tick (DeltaTime : ℚ)

/-- Effect of one operation. -/
def Op.step (E : Engine) (w : UWorld) (op : Op) : UWorld :=
  match op with
  | Op.Server_Attack self => BattleGame.Server_Attack_Implementation E self w
  | Op.SeekAndApplyDamage self => BattleGame.SeekAndApplyDamage E self w
  | Op.TakeDamage self DamageAmount DamageCauser =>
    (BattleGame.TakeDamage E self DamageAmount DamageCauser w).2
  | Op.Tick DeltaTime => BattleGame.Tick E DeltaTime w

/-- Effect of a sequence of operations, first to last. -/
def run (E : Engine) (w : UWorld) (ops : List Op) : UWorld :=
  ops.foldl (Op.step E) w

/-- The battle character the hit-scan of `self` reports in world `w`: the
trace has a blocking hit and the cast of its actor succeeds. -/
def HitCharacter (E : Engine) (self : CharId) (w : UWorld) : Option CharId :=
  match (TraceForOpponent E self w).1 with
  | some HitResult => Cast HitResult.Actor
  | none => none

/-- The record is a call of `TakeDamage`. -/
def Event.isTakeDamage (e : Event) : Bool :=
  match e with
  | Event.TakeDamage _ _ => true
  | _ => false

/-- What a call appended to the log: the log of `after` past the length of
the log of `before`. -/
def NewEvents (before after : UWorld) : List Event :=
  after.Log.drop before.Log.length

/-- Number of requests of `self` accepted so far: each accepted request
records one "attack attempted". -/
def AcceptedCount (self : CharId) (w : UWorld) : Nat :=
  w.Log.count (Event.OnAttackAttempted self)

/-- Frame times are not negative. -/
def Op.Valid (op : Op) : Prop :=
  match op with
  | Op.Tick DeltaTime => 0 ≤ DeltaTime
  | _ => True

/-- Damage handed to `TakeDamage` directly is not negative. -/
def Op.NonNegativeDamage (op : Op) : Prop :=
  match op with
  | Op.TakeDamage _ DamageAmount _ => 0 ≤ DamageAmount
  | _ => True

/-- Consistency of handles and pending timers, as the timer manager
maintains it: pending timers carry distinct, already assigned, non-zero
handles; no handle member is ahead of the handle counter; a pending cooldown
lambda of a character is the timer its `AttackTimer` names; and a pending
timer named by an `ApplyAttackDamageTimer` is that character's damage
lambda. -/
def UWorld.WellFormed (w : UWorld) : Prop :=
  (∀ t ∈ w.TimerManager.ActiveTimers,
      0 < t.Handle.Handle ∧ t.Handle.Handle ≤ w.TimerManager.LastAssignedHandle) ∧
  (w.TimerManager.ActiveTimers.map (fun t => t.Handle)).Nodup ∧
  (∀ j, (w.Characters j).AttackTimer.Handle ≤ w.TimerManager.LastAssignedHandle ∧
      (w.Characters j).ApplyAttackDamageTimer.Handle ≤ w.TimerManager.LastAssignedHandle) ∧
  (∀ t ∈ w.TimerManager.ActiveTimers, ∀ j,
      t.Callback = TimerCallback.InvalidateAttackTimer j → t.Handle = (w.Characters j).AttackTimer) ∧
  (∀ t ∈ w.TimerManager.ActiveTimers, ∀ j,
      t.Handle = (w.Characters j).ApplyAttackDamageTimer →
        t.Callback = TimerCallback.SeekAndApplyDamage j)

/-- From `w` to `after` no character was healed: every `AttackAmount` is
the same and no `Health` is higher. -/
def UWorld.NotHealedIn (w after : UWorld) : Prop :=
  ∀ j, (after.Characters j).AttackAmount = (w.Characters j).AttackAmount ∧
    (after.Characters j).Health ≤ (w.Characters j).Health

/-- The cooldown of `self` is running: its `AttackTimer` is the non-zero
handle `h`, and the timer manager holds the cooldown lambda of `self` under
that handle, to expire at `e`. -/
def UWorld.CoolingUntil (w : UWorld) (self : CharId) (h : Nat) (e : ℚ) : Prop :=
  0 < h ∧ (w.Characters self).AttackTimer = ⟨h⟩ ∧
  (⟨⟨h⟩, e, TimerCallback.InvalidateAttackTimer self⟩ : FTimerData) ∈
    w.TimerManager.ActiveTimers

/-- From `w` to `after` the timer manager and every timer handle member
are unchanged. -/
def UWorld.SameTimersIn (w after : UWorld) : Prop :=
  after.TimerManager = w.TimerManager ∧
  ∀ j, (after.Characters j).AttackTimer = (w.Characters j).AttackTimer ∧
    (after.Characters j).ApplyAttackDamageTimer = (w.Characters j).ApplyAttackDamageTimer

namespace Scenario

/-- A character standing at `(x, 0, 0)` and facing along `+X`, with 100
health, 20 attack damage, a cooldown of `1` and a damage delay of `3/10`. -/
def Fighter (x : ℚ) : ABattleGameCharacter :=
  { MaxHealth := 100, Health := 100, AttackAmount := 20, AttackCooldownDuration := 1,
    ApplyAttackDamageDelay := 3 / 10, AttackTimer := ⟨0⟩, ApplyAttackDamageTimer := ⟨0⟩,
    ActorLocation := ⟨x, 0, 0⟩, ActorForwardVector := ⟨1, 0, 0⟩ }

/-- A fresh world at time `0`: the given attacker is character `0`, and
character `1` (like every other index) is a `Fighter` 50 units ahead. -/
def Arena (attacker : ABattleGameCharacter) : UWorld :=
  { Characters := fun id => if id = 0 then attacker else Fighter 50
    TimerManager := ⟨0, [], 0⟩
    Log := [] }

/-- An environment for the arena: damage passes through the parent class
unchanged; a trace reports character `1` when it is not the ignored actor
and the traced segment runs along its row and covers its position; and the
subtraction is exact, as `float` subtraction is on the small whole numbers
the arena uses for health and damage. -/
def Physics : Engine :=
  { LineTraceSingleByObjectType := fun w Start End IgnoreActor =>
      let target := w.Characters 1
      if IgnoreActor ≠ 1 ∧
          Start.Y = target.ActorLocation.Y ∧ End.Y = target.ActorLocation.Y ∧
          Start.Z = target.ActorLocation.Z ∧ End.Z = target.ActorLocation.Z ∧
          Start.X ≤ target.ActorLocation.X ∧ target.ActorLocation.X ≤ End.X then
        some ⟨some (AActor.BattleGameCharacter 1), target.ActorLocation⟩
      else none
    SuperTakeDamage := fun _ DamageAmount _ => DamageAmount
    FloatSub := fun h d => h - d
    FloatSub_le := fun h _ hd => sub_le_self h hd }

end Scenario

/-! ## Basic facts about the operations -/

@[simp] theorem emit_Characters (w : UWorld) (e : Event) : (w.emit e).Characters = w.Characters := rfl

@[simp] theorem emit_TimerManager (w : UWorld) (e : Event) :
    (w.emit e).TimerManager = w.TimerManager := rfl

@[simp] theorem emit_Log (w : UWorld) (e : Event) : (w.emit e).Log = w.Log ++ [e] := rfl

@[simp] theorem setCharacter_Characters (w : UWorld) (id : CharId) (c : ABattleGameCharacter) :
    (w.setCharacter id c).Characters = Function.update w.Characters id c := rfl

@[simp] theorem setCharacter_TimerManager (w : UWorld) (id : CharId) (c : ABattleGameCharacter) :
    (w.setCharacter id c).TimerManager = w.TimerManager := rfl

@[simp] theorem setCharacter_Log (w : UWorld) (id : CharId) (c : ABattleGameCharacter) :
    (w.setCharacter id c).Log = w.Log := rfl

@[simp] theorem NewEvents_append (w w1 : UWorld) (evs : List Event) (h : w1.Log = w.Log ++ evs) :
    NewEvents w w1 = evs := by
  simp [NewEvents, h]

theorem TakeDamage_Characters (E : Engine) (self : CharId) (d : ℚ) (causer : Option CharId)
    (w : UWorld) :
    (TakeDamage E self d causer w).2.Characters =
      Function.update w.Characters self
        { w.Characters self with
          Health := E.FloatSub (w.Characters self).Health
            (E.SuperTakeDamage self d causer) } := rfl

theorem TakeDamage_TimerManager (E : Engine) (self : CharId) (d : ℚ) (causer : Option CharId)
    (w : UWorld) : (TakeDamage E self d causer w).2.TimerManager = w.TimerManager := rfl

theorem TakeDamage_Log (E : Engine) (self : CharId) (d : ℚ) (causer : Option CharId)
    (w : UWorld) :
    (TakeDamage E self d causer w).2.Log = w.Log ++ [Event.TakeDamage self d] := rfl

/-- A hit-scan that reports a battle character: the trace, one `TakeDamage`
of that character with the attacker's `AttackAmount`, then the "attack
succeeded" notification. -/
theorem SeekAndApplyDamage_hit (E : Engine) (self : CharId) (w : UWorld) (Hit : FHitResult)
    (target : CharId) (htrace : (TraceForOpponent E self w).1 = some Hit)
    (hcast : Cast Hit.Actor = some target) :
    SeekAndApplyDamage E self w =
      ((TakeDamage E target (w.Characters self).AttackAmount (some self)
          (w.emit (Event.LineTrace self (TraceStart (w.Characters self))
            (TraceEnd (w.Characters self)) self))).2).emit
        (Event.OnAttackSuccessful self Hit) := by
  unfold SeekAndApplyDamage
  have h2 : (TraceForOpponent E self w).2 =
      w.emit (Event.LineTrace self (TraceStart (w.Characters self))
        (TraceEnd (w.Characters self)) self) := rfl
  rcases hT : TraceForOpponent E self w with ⟨r, w1⟩
  rw [hT] at htrace h2
  simp only at htrace h2
  subst htrace
  subst h2
  simp only [hcast, emit_Characters]

/-- A hit-scan that reports nothing, or an actor that is not a battle
character: only the trace happens. -/
theorem SeekAndApplyDamage_miss (E : Engine) (self : CharId) (w : UWorld)
    (hmiss : HitCharacter E self w = none) :
    SeekAndApplyDamage E self w =
      w.emit (Event.LineTrace self (TraceStart (w.Characters self))
        (TraceEnd (w.Characters self)) self) := by
  unfold SeekAndApplyDamage
  unfold HitCharacter at hmiss
  have h2 : (TraceForOpponent E self w).2 =
      w.emit (Event.LineTrace self (TraceStart (w.Characters self))
        (TraceEnd (w.Characters self)) self) := rfl
  rcases hT : TraceForOpponent E self w with ⟨r, w1⟩
  rw [hT] at hmiss h2
  simp only at hmiss h2
  subst h2
  cases r with
  | none => rfl
  | some Hit =>
    simp only at hmiss
    simp only [hmiss]

/-- The hit-scan reports a battle character exactly when the trace has a
hit whose actor casts to it. -/
theorem HitCharacter_eq_some (E : Engine) (self : CharId) (w : UWorld) (target : CharId) :
    HitCharacter E self w = some target ↔
      ∃ Hit, (TraceForOpponent E self w).1 = some Hit ∧ Cast Hit.Actor = some target := by
  unfold HitCharacter
  cases h : (TraceForOpponent E self w).1 with
  | none => simp
  | some Hit => simp

/-! ## The timer manager -/

theorem SetTimer_InternalTime (tm : FTimerManager) (h : FTimerHandle) (cb : TimerCallback)
    (r : ℚ) : (tm.SetTimer h cb r).1.InternalTime = tm.InternalTime := by
  unfold FTimerManager.SetTimer FTimerManager.InternalClearTimer
  split_ifs <;> rfl

theorem SetTimer_LastAssignedHandle (tm : FTimerManager) (h : FTimerHandle) (cb : TimerCallback)
    (r : ℚ) :
    (tm.SetTimer h cb r).1.LastAssignedHandle =
      if 0 < r then tm.LastAssignedHandle + 1 else tm.LastAssignedHandle := by
  unfold FTimerManager.SetTimer FTimerManager.InternalClearTimer
  split_ifs <;> rfl

theorem SetTimer_handle (tm : FTimerManager) (h : FTimerHandle) (cb : TimerCallback) (r : ℚ) :
    (tm.SetTimer h cb r).2 = if 0 < r then ⟨tm.LastAssignedHandle + 1⟩ else ⟨0⟩ := by
  unfold FTimerManager.SetTimer FTimerManager.InternalClearTimer FTimerHandle.Invalidate
  split_ifs <;> rfl

/-- Pending timers after `SetTimer`: the old ones except the one the handle
named, and the new one when the rate is positive. -/
theorem SetTimer_ActiveTimers (tm : FTimerManager) (h : FTimerHandle) (cb : TimerCallback)
    (r : ℚ) :
    (tm.SetTimer h cb r).1.ActiveTimers =
      tm.ActiveTimers.filter (fun t => !(t.Handle == h)) ++
        (if 0 < r then [⟨⟨tm.LastAssignedHandle + 1⟩, tm.InternalTime + r, cb⟩] else []) := by
  have hclear : (if tm.FindTimer h then tm.InternalClearTimer h else tm).ActiveTimers =
      tm.ActiveTimers.filter (fun t => !(t.Handle == h)) := by
    by_cases hf : tm.FindTimer h = true
    · simp [hf, FTimerManager.InternalClearTimer]
    · have hall : tm.ActiveTimers.filter (fun t => !(t.Handle == h)) = tm.ActiveTimers := by
        rw [List.filter_eq_self]
        intro t ht
        simp only [FTimerManager.FindTimer, List.any_eq_true, not_exists, not_and] at hf
        simpa using hf t ht
      simp only [hf, hall]
      rfl
  have hL : (if tm.FindTimer h then tm.InternalClearTimer h else tm).LastAssignedHandle =
      tm.LastAssignedHandle := by
    split_ifs <;> rfl
  have hT : (if tm.FindTimer h then tm.InternalClearTimer h else tm).InternalTime =
      tm.InternalTime := by
    split_ifs <;> rfl
  unfold FTimerManager.SetTimer
  by_cases hr : 0 < r
  · simp only [hr, if_true, hclear, hL, hT]
  · simp only [hr, if_false, hclear, List.append_nil]

theorem AttackDelay_eq_min (c : ABattleGameCharacter) :
    AttackDelay c = min c.ApplyAttackDamageDelay c.AttackCooldownDuration := by
  unfold AttackDelay
  split_ifs with h
  · exact (min_eq_left h.le).symm
  · exact (min_eq_right (not_lt.mp h)).symm

theorem SetAttackTimer_Characters (self : CharId) (w : UWorld) :
    (SetAttackTimer self w).Characters =
      Function.update w.Characters self
        { w.Characters self with
          AttackTimer := (w.TimerManager.SetTimer (w.Characters self).AttackTimer
            (TimerCallback.InvalidateAttackTimer self)
            (w.Characters self).AttackCooldownDuration).2 } := rfl

theorem SetAttackTimer_TimerManager (self : CharId) (w : UWorld) :
    (SetAttackTimer self w).TimerManager =
      (w.TimerManager.SetTimer (w.Characters self).AttackTimer
        (TimerCallback.InvalidateAttackTimer self) (w.Characters self).AttackCooldownDuration).1 :=
  rfl

theorem SetAttackTimer_Log (self : CharId) (w : UWorld) :
    (SetAttackTimer self w).Log =
      w.Log ++ [Event.SetTimer self TimerName.AttackTimer
        (w.Characters self).AttackCooldownDuration] := rfl

theorem SetApplyAttackDamageTimer_Characters (self : CharId) (w : UWorld) :
    (SetApplyAttackDamageTimer self w).Characters =
      Function.update w.Characters self
        { w.Characters self with
          ApplyAttackDamageTimer := (w.TimerManager.SetTimer
            (w.Characters self).ApplyAttackDamageTimer
            (TimerCallback.SeekAndApplyDamage self) (AttackDelay (w.Characters self))).2 } := rfl

theorem SetApplyAttackDamageTimer_TimerManager (self : CharId) (w : UWorld) :
    (SetApplyAttackDamageTimer self w).TimerManager =
      (w.TimerManager.SetTimer (w.Characters self).ApplyAttackDamageTimer
        (TimerCallback.SeekAndApplyDamage self) (AttackDelay (w.Characters self))).1 := rfl

theorem SetApplyAttackDamageTimer_Log (self : CharId) (w : UWorld) :
    (SetApplyAttackDamageTimer self w).Log =
      w.Log ++ [Event.SetTimer self TimerName.ApplyAttackDamageTimer
        (AttackDelay (w.Characters self))] := rfl

/-- Setting the cooldown timer changes no member of any character other
than the `AttackTimer` of `self`. -/
theorem SetAttackTimer_members (self : CharId) (w : UWorld) (j : CharId) :
    (SetAttackTimer self w).Characters j =
      { w.Characters j with AttackTimer := ((SetAttackTimer self w).Characters j).AttackTimer } := by
  rw [SetAttackTimer_Characters]
  by_cases hj : j = self
  · subst hj
    simp
  · simp [Function.update_noteq hj]

theorem Server_Attack_dropped (E : Engine) (self : CharId) (w : UWorld)
    (h : (w.Characters self).AttackTimer.IsValid = true) : Server_Attack_Implementation E self w = w := by
  unfold Server_Attack_Implementation
  simp [h]

theorem Server_Attack_delayed (E : Engine) (self : CharId) (w : UWorld)
    (hacc : (w.Characters self).AttackTimer.IsValid = false)
    (hd : 0 < (w.Characters self).ApplyAttackDamageDelay) :
    Server_Attack_Implementation E self w =
      (SetApplyAttackDamageTimer self (SetAttackTimer self w)).emit
        (Event.OnAttackAttempted self) := by
  unfold Server_Attack_Implementation
  have h1 : ((SetAttackTimer self w).Characters self).ApplyAttackDamageDelay =
      (w.Characters self).ApplyAttackDamageDelay := by
    rw [SetAttackTimer_members]
  simp [hacc, h1, hd]

theorem Server_Attack_immediate (E : Engine) (self : CharId) (w : UWorld)
    (hacc : (w.Characters self).AttackTimer.IsValid = false)
    (hd : (w.Characters self).ApplyAttackDamageDelay ≤ 0) :
    Server_Attack_Implementation E self w =
      (SeekAndApplyDamage E self (SetAttackTimer self w)).emit
        (Event.OnAttackAttempted self) := by
  unfold Server_Attack_Implementation
  have h1 : ((SetAttackTimer self w).Characters self).ApplyAttackDamageDelay =
      (w.Characters self).ApplyAttackDamageDelay := by
    rw [SetAttackTimer_members]
  simp [hacc, h1, not_lt.mpr hd]

/-! ## Requests during the cooldown -/

/-- C1. While the cooldown is active (`AttackTimer` is valid) a call of
`Server_Attack` returns the world it was given: timers, handles and every
character's health are unchanged, and nothing is appended to the log (no
hit-scan, no "attack attempted", no "attack succeeded"). -/
theorem Server_Attack_noop_during_cooldown (E : Engine) (self : CharId) (w : UWorld)
    (hcool : (w.Characters self).AttackTimer.IsValid = true) :
    Server_Attack_Implementation E self w = w ∧ NewEvents w (Server_Attack_Implementation E self w) = [] := by
  have h := Server_Attack_dropped E self w hcool
  refine ⟨h, ?_⟩
  rw [h]
  simp [NewEvents]

/-- C1 at a concrete input: the arena right after character `0` had a
request accepted; a second request changes nothing. -/
theorem Server_Attack_noop_during_cooldown_witness :
    ((Server_Attack_Implementation Scenario.Physics 0 (Scenario.Arena (Scenario.Fighter 0))).Characters
        0).AttackTimer.IsValid = true ∧
    Server_Attack_Implementation Scenario.Physics 0
        (Server_Attack_Implementation Scenario.Physics 0 (Scenario.Arena (Scenario.Fighter 0))) =
      Server_Attack_Implementation Scenario.Physics 0 (Scenario.Arena (Scenario.Fighter 0)) :=
  ⟨by decide!,
   (Server_Attack_noop_during_cooldown Scenario.Physics 0
      (Server_Attack_Implementation Scenario.Physics 0 (Scenario.Arena (Scenario.Fighter 0))) (by decide!)).1⟩

/-! ## Hit resolution -/

/-- C3. `SeekAndApplyDamage` records an "attack succeeded" notification
(of any character, with any payload) exactly when the hit-scan reports a
battle character. When the trace returns `Hit` and its actor casts to
`target`, the call records exactly the trace, one `TakeDamage` of `target`
with the attacker's `AttackAmount`, and one "attack succeeded" of `self`
carrying `Hit`; the health of `target` becomes the `float` difference of its
old health and the amount the parent class returns, every other member of
`target` is kept, and no other character changes. On a miss (no hit, or an
actor that is not a battle character) no character changes and the trace is
all that is recorded. -/
theorem SeekAndApplyDamage_succeeds_iff_hit (E : Engine) (self : CharId) (w : UWorld) :
    ((∃ s Hit, Event.OnAttackSuccessful s Hit ∈ NewEvents w (SeekAndApplyDamage E self w)) ↔
      (HitCharacter E self w).isSome = true) ∧
    (∀ Hit target, (TraceForOpponent E self w).1 = some Hit → Cast Hit.Actor = some target →
      NewEvents w (SeekAndApplyDamage E self w) =
        [Event.LineTrace self (TraceStart (w.Characters self)) (TraceEnd (w.Characters self))
          self,
         Event.TakeDamage target (w.Characters self).AttackAmount,
         Event.OnAttackSuccessful self Hit] ∧
      (SeekAndApplyDamage E self w).Characters target =
        { w.Characters target with
          Health := E.FloatSub (w.Characters target).Health
            (E.SuperTakeDamage target (w.Characters self).AttackAmount (some self)) } ∧
      ∀ j, j ≠ target → (SeekAndApplyDamage E self w).Characters j = w.Characters j) ∧
    (HitCharacter E self w = none →
      (SeekAndApplyDamage E self w).Characters = w.Characters ∧
      NewEvents w (SeekAndApplyDamage E self w) =
        [Event.LineTrace self (TraceStart (w.Characters self)) (TraceEnd (w.Characters self))
          self]) := by
  have hmissNew : HitCharacter E self w = none →
      (SeekAndApplyDamage E self w).Characters = w.Characters ∧
      NewEvents w (SeekAndApplyDamage E self w) =
        [Event.LineTrace self (TraceStart (w.Characters self)) (TraceEnd (w.Characters self))
          self] := by
    intro hmiss
    rw [SeekAndApplyDamage_miss E self w hmiss]
    exact ⟨rfl, NewEvents_append _ _ _ rfl⟩
  have hhitNew : ∀ target Hit, (TraceForOpponent E self w).1 = some Hit →
      Cast Hit.Actor = some target →
      NewEvents w (SeekAndApplyDamage E self w) =
        [Event.LineTrace self (TraceStart (w.Characters self)) (TraceEnd (w.Characters self))
          self, Event.TakeDamage target (w.Characters self).AttackAmount,
          Event.OnAttackSuccessful self Hit] := by
    intro target Hit h1 h2
    rw [SeekAndApplyDamage_hit E self w Hit target h1 h2]
    apply NewEvents_append
    simp [TakeDamage_Log]
  refine ⟨?_, ?_, hmissNew⟩
  · constructor
    · rintro ⟨s, Hit, hmem⟩
      cases hc : HitCharacter E self w with
      | some target => rfl
      | none =>
        rw [(hmissNew hc).2] at hmem
        simp at hmem
    · intro hsome
      obtain ⟨target, htarget⟩ := Option.isSome_iff_exists.mp hsome
      obtain ⟨Hit, h1, h2⟩ := (HitCharacter_eq_some E self w target).mp htarget
      refine ⟨self, Hit, ?_⟩
      rw [hhitNew target Hit h1 h2]
      simp
  · intro Hit target h1 h2
    refine ⟨hhitNew target Hit h1 h2, ?_, ?_⟩
    · rw [SeekAndApplyDamage_hit E self w Hit target h1 h2]
      simp only [emit_Characters, TakeDamage_Characters]
      rw [Function.update_same]
    · intro j hj
      rw [SeekAndApplyDamage_hit E self w Hit target h1 h2]
      simp only [emit_Characters, TakeDamage_Characters]
      rw [Function.update_noteq hj]

/-- C3 at a concrete input: in the arena the trace of character `0` returns
character `1`, whose health goes from 100 to 80. -/
theorem SeekAndApplyDamage_succeeds_iff_hit_witness :
    (TraceForOpponent Scenario.Physics 0 (Scenario.Arena (Scenario.Fighter 0))).1 =
      some ⟨some (AActor.BattleGameCharacter 1), ⟨50, 0, 0⟩⟩ ∧
    ((SeekAndApplyDamage Scenario.Physics 0 (Scenario.Arena (Scenario.Fighter 0))).Characters
      1).Health = 80 :=
  ⟨by decide!,
   (congrArg ABattleGameCharacter.Health
      ((SeekAndApplyDamage_succeeds_iff_hit Scenario.Physics 0
        (Scenario.Arena (Scenario.Fighter 0))).2.1
          ⟨some (AActor.BattleGameCharacter 1), ⟨50, 0, 0⟩⟩ 1 (by decide!) (by decide!)).2.1).trans
    (by decide!)⟩

/-! ## Accepted requests -/

/-- C5. An accepted request with `ApplyAttackDamageDelay > 0` makes exactly
these calls: `SetTimer` on `AttackTimer` with the cooldown, `SetTimer` on
`ApplyAttackDamageTimer` with rate `min ApplyAttackDamageDelay
AttackCooldownDuration`, then "attack attempted". When that rate is positive
the damage lambda is pending under the new handle and expires that long
after the request; and when the delay exceeds the cooldown the rate is the
cooldown. -/
theorem Server_Attack_damage_timer_duration (E : Engine) (self : CharId) (w : UWorld)
    (hacc : (w.Characters self).AttackTimer.IsValid = false)
    (hd : 0 < (w.Characters self).ApplyAttackDamageDelay) :
    NewEvents w (Server_Attack_Implementation E self w) =
      [Event.SetTimer self TimerName.AttackTimer (w.Characters self).AttackCooldownDuration,
       Event.SetTimer self TimerName.ApplyAttackDamageTimer
         (min (w.Characters self).ApplyAttackDamageDelay
           (w.Characters self).AttackCooldownDuration),
       Event.OnAttackAttempted self] ∧
    (0 < min (w.Characters self).ApplyAttackDamageDelay
          (w.Characters self).AttackCooldownDuration →
      (⟨((Server_Attack_Implementation E self w).Characters self).ApplyAttackDamageTimer,
        w.TimerManager.InternalTime +
          min (w.Characters self).ApplyAttackDamageDelay
            (w.Characters self).AttackCooldownDuration,
        TimerCallback.SeekAndApplyDamage self⟩ : FTimerData) ∈
        (Server_Attack_Implementation E self w).TimerManager.ActiveTimers) ∧
    ((w.Characters self).AttackCooldownDuration < (w.Characters self).ApplyAttackDamageDelay →
      Event.SetTimer self TimerName.ApplyAttackDamageTimer
          (w.Characters self).AttackCooldownDuration ∈ NewEvents w (Server_Attack_Implementation E self w)) := by
  have hmem : (SetAttackTimer self w).Characters self =
      { w.Characters self with
        AttackTimer := ((SetAttackTimer self w).Characters self).AttackTimer } :=
    SetAttackTimer_members self w self
  have hdelay : AttackDelay ((SetAttackTimer self w).Characters self) =
      min (w.Characters self).ApplyAttackDamageDelay
        (w.Characters self).AttackCooldownDuration := by
    rw [AttackDelay_eq_min, hmem]
  have hnew : NewEvents w (Server_Attack_Implementation E self w) =
      [Event.SetTimer self TimerName.AttackTimer (w.Characters self).AttackCooldownDuration,
       Event.SetTimer self TimerName.ApplyAttackDamageTimer
         (min (w.Characters self).ApplyAttackDamageDelay
           (w.Characters self).AttackCooldownDuration),
       Event.OnAttackAttempted self] := by
    apply NewEvents_append
    rw [Server_Attack_delayed E self w hacc hd]
    simp [SetApplyAttackDamageTimer_Log, SetAttackTimer_Log, hdelay]
  refine ⟨hnew, ?_, ?_⟩
  · intro hpos
    rw [Server_Attack_delayed E self w hacc hd]
    simp only [emit_Characters, emit_TimerManager, SetApplyAttackDamageTimer_Characters,
      SetApplyAttackDamageTimer_TimerManager, Function.update_same, hdelay,
      SetTimer_ActiveTimers, SetTimer_handle, hpos, if_true, List.mem_append,
      List.mem_singleton]
    right
    rw [SetAttackTimer_TimerManager, SetTimer_InternalTime]
  · intro hlt
    rw [hnew, min_eq_right hlt.le]
    simp

/-- C5 at a concrete input: with a cooldown of 1 and a configured delay of
3 the damage timer is set with rate 1. -/
theorem Server_Attack_damage_timer_duration_witness :
    Event.SetTimer 0 TimerName.ApplyAttackDamageTimer 1 ∈
      NewEvents (Scenario.Arena { Scenario.Fighter 0 with ApplyAttackDamageDelay := 3 })
        (Server_Attack_Implementation Scenario.Physics 0
          (Scenario.Arena { Scenario.Fighter 0 with ApplyAttackDamageDelay := 3 })) :=
  (Server_Attack_damage_timer_duration Scenario.Physics 0
    (Scenario.Arena { Scenario.Fighter 0 with ApplyAttackDamageDelay := 3 })
    (by decide!) (by decide!)).2.2 (by decide!)

/-- An accepted request with `ApplyAttackDamageDelay ≤ 0` whose hit-scan
reports a battle character: the calls of the request, in order, are the
cooldown `SetTimer`, the trace, `TakeDamage` of the character hit, "attack
succeeded" and, last, "attack attempted". -/
theorem Server_Attack_immediate_hit (E : Engine) (self : CharId) (w : UWorld) (Hit : FHitResult)
    (victim : CharId) (hacc : (w.Characters self).AttackTimer.IsValid = false)
    (hd : (w.Characters self).ApplyAttackDamageDelay ≤ 0)
    (h1 : (TraceForOpponent E self (SetAttackTimer self w)).1 = some Hit)
    (h2 : Cast Hit.Actor = some victim) :
    Server_Attack_Implementation E self w =
        (((TakeDamage E victim (w.Characters self).AttackAmount (some self)
          ((SetAttackTimer self w).emit (Event.LineTrace self (TraceStart (w.Characters self))
            (TraceEnd (w.Characters self)) self))).2).emit
              (Event.OnAttackSuccessful self Hit)).emit (Event.OnAttackAttempted self) ∧
    NewEvents w (Server_Attack_Implementation E self w) =
        [Event.SetTimer self TimerName.AttackTimer (w.Characters self).AttackCooldownDuration,
         Event.LineTrace self (TraceStart (w.Characters self)) (TraceEnd (w.Characters self))
           self,
         Event.TakeDamage victim (w.Characters self).AttackAmount,
         Event.OnAttackSuccessful self Hit,
         Event.OnAttackAttempted self] := by
  have hmem : (SetAttackTimer self w).Characters self =
      { w.Characters self with
        AttackTimer := ((SetAttackTimer self w).Characters self).AttackTimer } :=
    SetAttackTimer_members self w self
  have hstart : TraceStart ((SetAttackTimer self w).Characters self) =
      TraceStart (w.Characters self) := by
    rw [hmem]; rfl
  have hend : TraceEnd ((SetAttackTimer self w).Characters self) =
      TraceEnd (w.Characters self) := by
    rw [hmem]; rfl
  have hamount : ((SetAttackTimer self w).Characters self).AttackAmount =
      (w.Characters self).AttackAmount := by
    rw [hmem]
  have hW : Server_Attack_Implementation E self w =
      (((TakeDamage E victim (w.Characters self).AttackAmount (some self)
        ((SetAttackTimer self w).emit (Event.LineTrace self (TraceStart (w.Characters self))
          (TraceEnd (w.Characters self)) self))).2).emit
            (Event.OnAttackSuccessful self Hit)).emit (Event.OnAttackAttempted self) := by
    rw [Server_Attack_immediate E self w hacc hd,
      SeekAndApplyDamage_hit E self _ Hit victim h1 h2, hstart, hend, hamount]
  refine ⟨hW, ?_⟩
  apply NewEvents_append
  rw [hW]
  simp [SetAttackTimer_Log, TakeDamage_Log]

/-- C6. An accepted request with `ApplyAttackDamageDelay ≤ 0` runs
`SeekAndApplyDamage` inside the call, on the world in which the cooldown
timer has just been set: the hit-scan of `self` is recorded in the same call
as "attack attempted". When that trace returns `Hit` and its actor casts to
`target`, then on return the health of `target` is the `float` difference of
its old health and the amount the parent class returns, and the calls of the
request are the cooldown `SetTimer`, the trace, `TakeDamage` of `target`,
"attack succeeded" of `self` carrying `Hit`, and "attack attempted". No
`SetTimer` on a damage timer is made, no `ApplyAttackDamageTimer` changes,
and every damage lambda pending afterwards was pending before. -/
theorem Server_Attack_synchronous_resolution (E : Engine) (self : CharId) (w : UWorld)
    (hacc : (w.Characters self).AttackTimer.IsValid = false)
    (hd : (w.Characters self).ApplyAttackDamageDelay ≤ 0) :
    Server_Attack_Implementation E self w =
      (SeekAndApplyDamage E self (SetAttackTimer self w)).emit (Event.OnAttackAttempted self) ∧
    Event.LineTrace self (TraceStart (w.Characters self)) (TraceEnd (w.Characters self)) self ∈
      NewEvents w (Server_Attack_Implementation E self w) ∧
    Event.OnAttackAttempted self ∈ NewEvents w (Server_Attack_Implementation E self w) ∧
    (∀ Hit target, (TraceForOpponent E self (SetAttackTimer self w)).1 = some Hit →
      Cast Hit.Actor = some target →
      ((Server_Attack_Implementation E self w).Characters target).Health =
        E.FloatSub (w.Characters target).Health
          (E.SuperTakeDamage target (w.Characters self).AttackAmount (some self)) ∧
      NewEvents w (Server_Attack_Implementation E self w) =
        [Event.SetTimer self TimerName.AttackTimer (w.Characters self).AttackCooldownDuration,
         Event.LineTrace self (TraceStart (w.Characters self)) (TraceEnd (w.Characters self))
           self,
         Event.TakeDamage target (w.Characters self).AttackAmount,
         Event.OnAttackSuccessful self Hit,
         Event.OnAttackAttempted self]) ∧
    (∀ s rate, Event.SetTimer s TimerName.ApplyAttackDamageTimer rate ∉
      NewEvents w (Server_Attack_Implementation E self w)) ∧
    (∀ j, ((Server_Attack_Implementation E self w).Characters j).ApplyAttackDamageTimer =
      (w.Characters j).ApplyAttackDamageTimer) ∧
    (∀ t ∈ (Server_Attack_Implementation E self w).TimerManager.ActiveTimers, ∀ s,
      t.Callback = TimerCallback.SeekAndApplyDamage s → t ∈ w.TimerManager.ActiveTimers) := by
  have hS := Server_Attack_immediate E self w hacc hd
  have hmem : ∀ j, (SetAttackTimer self w).Characters j =
      { w.Characters j with
        AttackTimer := ((SetAttackTimer self w).Characters j).AttackTimer } :=
    SetAttackTimer_members self w
  have hstart : TraceStart ((SetAttackTimer self w).Characters self) =
      TraceStart (w.Characters self) := by
    rw [hmem self]; rfl
  have hend : TraceEnd ((SetAttackTimer self w).Characters self) =
      TraceEnd (w.Characters self) := by
    rw [hmem self]; rfl
  have hamount : ((SetAttackTimer self w).Characters self).AttackAmount =
      (w.Characters self).AttackAmount := by
    rw [hmem self]
  have hfour : ∀ Hit target, (TraceForOpponent E self (SetAttackTimer self w)).1 = some Hit →
      Cast Hit.Actor = some target →
      ((Server_Attack_Implementation E self w).Characters target).Health =
        E.FloatSub (w.Characters target).Health
          (E.SuperTakeDamage target (w.Characters self).AttackAmount (some self)) ∧
      NewEvents w (Server_Attack_Implementation E self w) =
        [Event.SetTimer self TimerName.AttackTimer (w.Characters self).AttackCooldownDuration,
         Event.LineTrace self (TraceStart (w.Characters self)) (TraceEnd (w.Characters self))
           self,
         Event.TakeDamage target (w.Characters self).AttackAmount,
         Event.OnAttackSuccessful self Hit,
         Event.OnAttackAttempted self] := by
    intro Hit target h1 h2
    obtain ⟨hW, hnew⟩ := Server_Attack_immediate_hit E self w Hit target hacc hd h1 h2
    refine ⟨?_, hnew⟩
    rw [hW]
    simp only [emit_Characters, TakeDamage_Characters]
    rw [Function.update_same, hmem target]
  have htimers : (Server_Attack_Implementation E self w).TimerManager =
      (SetAttackTimer self w).TimerManager := by
    rw [hS]
    cases hc : HitCharacter E self (SetAttackTimer self w) with
    | none => rw [SeekAndApplyDamage_miss E self _ hc]; rfl
    | some target =>
      obtain ⟨Hit, h1, h2⟩ := (HitCharacter_eq_some E self _ target).mp hc
      rw [SeekAndApplyDamage_hit E self _ Hit target h1 h2]; rfl
  cases hc : HitCharacter E self (SetAttackTimer self w) with
  | none =>
    have hW : Server_Attack_Implementation E self w =
        ((SetAttackTimer self w).emit (Event.LineTrace self (TraceStart (w.Characters self))
          (TraceEnd (w.Characters self)) self)).emit (Event.OnAttackAttempted self) := by
      rw [hS, SeekAndApplyDamage_miss E self _ hc, hstart, hend]
    have hnew : NewEvents w (Server_Attack_Implementation E self w) =
        [Event.SetTimer self TimerName.AttackTimer (w.Characters self).AttackCooldownDuration,
         Event.LineTrace self (TraceStart (w.Characters self)) (TraceEnd (w.Characters self))
           self,
         Event.OnAttackAttempted self] := by
      apply NewEvents_append
      rw [hW]
      simp [SetAttackTimer_Log]
    refine ⟨hS, ?_, ?_, ?_, ?_, ?_, ?_⟩
    · rw [hnew]; simp
    · rw [hnew]; simp
    · exact hfour
    · intro s rate
      rw [hnew]; simp
    · intro j
      rw [hW]
      simp only [emit_Characters]
      rw [hmem j]
    · intro t ht s hs
      rw [htimers, SetAttackTimer_TimerManager, SetTimer_ActiveTimers] at ht
      rcases List.mem_append.mp ht with h | h
      · exact (List.mem_filter.mp h).1
      · split_ifs at h
        · rw [List.mem_singleton] at h
          rw [h] at hs
          exact absurd hs (by simp)
        · simp at h
  | some victim =>
    obtain ⟨Hit, h1, h2⟩ := (HitCharacter_eq_some E self _ victim).mp hc
    obtain ⟨hW, hnew⟩ := Server_Attack_immediate_hit E self w Hit victim hacc hd h1 h2
    refine ⟨hS, ?_, ?_, ?_, ?_, ?_, ?_⟩
    · rw [hnew]; simp
    · rw [hnew]; simp
    · exact hfour
    · intro s rate
      rw [hnew]; simp
    · intro j
      rw [hW]
      simp only [emit_Characters, TakeDamage_Characters]
      by_cases hj : j = victim
      · subst hj
        simp only [Function.update_same]
        rw [hmem j]
      · rw [Function.update_noteq hj, hmem j]
    · intro t ht s hs
      rw [htimers, SetAttackTimer_TimerManager, SetTimer_ActiveTimers] at ht
      rcases List.mem_append.mp ht with h | h
      · exact (List.mem_filter.mp h).1
      · split_ifs at h
        · rw [List.mem_singleton] at h
          rw [h] at hs
          exact absurd hs (by simp)
        · simp at h

/-- C6 at a concrete input: with a delay of 0 the request of character `0`
in the arena damages character `1` inside the call, and leaves no damage
lambda pending. -/
theorem Server_Attack_synchronous_resolution_witness :
    ((Server_Attack_Implementation Scenario.Physics 0
        (Scenario.Arena { Scenario.Fighter 0 with ApplyAttackDamageDelay := 0 })).Characters
      1).Health = 100 - 20 ∧
    (Server_Attack_Implementation Scenario.Physics 0
      (Scenario.Arena { Scenario.Fighter 0 with
        ApplyAttackDamageDelay := 0 })).TimerManager.ActiveTimers.all
      (fun t => t.Callback != TimerCallback.SeekAndApplyDamage 0) = true :=
  ⟨((Server_Attack_synchronous_resolution Scenario.Physics 0
      (Scenario.Arena { Scenario.Fighter 0 with ApplyAttackDamageDelay := 0 })
      (by decide!) (by decide!)).2.2.2.1
        ⟨some (AActor.BattleGameCharacter 1), ⟨50, 0, 0⟩⟩ 1 (by decide!) (by decide!)).1,
   by decide!⟩

/-! ## Health -/

theorem NotHealedIn_refl (w : UWorld) : w.NotHealedIn w :=
  fun _ => ⟨rfl, le_refl _⟩

theorem NotHealedIn_trans {w1 w2 w3 : UWorld} (h12 : w1.NotHealedIn w2)
    (h23 : w2.NotHealedIn w3) : w1.NotHealedIn w3 :=
  fun j => ⟨(h23 j).1.trans (h12 j).1, (h23 j).2.trans (h12 j).2⟩

theorem NotHealedIn_of_Characters {w after : UWorld} (h : after.Characters = w.Characters) :
    w.NotHealedIn after := by
  intro j
  rw [h]
  exact ⟨rfl, le_refl _⟩

theorem TakeDamage_NotHealedIn (E : Engine) (self : CharId) (d : ℚ) (causer : Option CharId)
    (w : UWorld) (hnn : 0 ≤ E.SuperTakeDamage self d causer) :
    w.NotHealedIn (TakeDamage E self d causer w).2 := by
  intro j
  rw [TakeDamage_Characters]
  by_cases hj : j = self
  · subst hj
    rw [Function.update_same]
    exact ⟨rfl, E.FloatSub_le _ _ hnn⟩
  · rw [Function.update_noteq hj]
    exact ⟨rfl, le_refl _⟩

theorem SeekAndApplyDamage_NotHealedIn (E : Engine) (self : CharId) (w : UWorld)
    (hE : ∀ target d causer, 0 ≤ d → 0 ≤ E.SuperTakeDamage target d causer)
    (hA : ∀ j, 0 ≤ (w.Characters j).AttackAmount) :
    w.NotHealedIn (SeekAndApplyDamage E self w) := by
  cases hc : HitCharacter E self w with
  | none =>
    rw [SeekAndApplyDamage_miss E self w hc]
    exact NotHealedIn_of_Characters rfl
  | some target =>
    obtain ⟨Hit, h1, h2⟩ := (HitCharacter_eq_some E self w target).mp hc
    rw [SeekAndApplyDamage_hit E self w Hit target h1 h2]
    have h := TakeDamage_NotHealedIn E target (w.Characters self).AttackAmount (some self)
      (w.emit (Event.LineTrace self (TraceStart (w.Characters self))
        (TraceEnd (w.Characters self)) self)) (hE _ _ _ (hA self))
    exact h

theorem SetAttackTimer_NotHealedIn (self : CharId) (w : UWorld) :
    w.NotHealedIn (SetAttackTimer self w) := by
  intro j
  rw [SetAttackTimer_members self w j]
  exact ⟨rfl, le_refl _⟩

theorem SetApplyAttackDamageTimer_NotHealedIn (self : CharId) (w : UWorld) :
    w.NotHealedIn (SetApplyAttackDamageTimer self w) := by
  intro j
  rw [SetApplyAttackDamageTimer_Characters]
  by_cases hj : j = self
  · subst hj
    rw [Function.update_same]
    exact ⟨rfl, le_refl _⟩
  · rw [Function.update_noteq hj]
    exact ⟨rfl, le_refl _⟩

theorem NotHealedIn_AttackAmount {w after : UWorld} (h : w.NotHealedIn after)
    (hA : ∀ j, 0 ≤ (w.Characters j).AttackAmount) :
    ∀ j, 0 ≤ (after.Characters j).AttackAmount := by
  intro j
  rw [(h j).1]
  exact hA j

theorem Server_Attack_NotHealedIn (E : Engine) (self : CharId) (w : UWorld)
    (hE : ∀ target d causer, 0 ≤ d → 0 ≤ E.SuperTakeDamage target d causer)
    (hA : ∀ j, 0 ≤ (w.Characters j).AttackAmount) :
    w.NotHealedIn (Server_Attack_Implementation E self w) := by
  by_cases hv : (w.Characters self).AttackTimer.IsValid = true
  · rw [Server_Attack_dropped E self w hv]
    exact NotHealedIn_refl w
  · have hacc : (w.Characters self).AttackTimer.IsValid = false := by
      simpa using hv
    have h1 := SetAttackTimer_NotHealedIn self w
    by_cases hd : 0 < (w.Characters self).ApplyAttackDamageDelay
    · rw [Server_Attack_delayed E self w hacc hd]
      exact NotHealedIn_trans h1 (SetApplyAttackDamageTimer_NotHealedIn self _)
    · rw [Server_Attack_immediate E self w hacc (not_lt.mp hd)]
      exact NotHealedIn_trans h1
        (SeekAndApplyDamage_NotHealedIn E self _ hE (NotHealedIn_AttackAmount h1 hA))

theorem Execute_NotHealedIn (E : Engine) (cb : TimerCallback) (w : UWorld)
    (hE : ∀ target d causer, 0 ≤ d → 0 ≤ E.SuperTakeDamage target d causer)
    (hA : ∀ j, 0 ≤ (w.Characters j).AttackAmount) :
    w.NotHealedIn (cb.Execute E w) := by
  cases cb with
  | InvalidateAttackTimer self =>
    intro j
    simp only [TimerCallback.Execute, setCharacter_Characters]
    by_cases hj : j = self
    · subst hj
      rw [Function.update_same]
      exact ⟨rfl, le_refl _⟩
    · rw [Function.update_noteq hj]
      exact ⟨rfl, le_refl _⟩
  | SeekAndApplyDamage self =>
    exact SeekAndApplyDamage_NotHealedIn E self w hE hA

theorem fire_NotHealedIn (E : Engine) (fired : List FTimerData)
    (hE : ∀ target d causer, 0 ≤ d → 0 ≤ E.SuperTakeDamage target d causer) :
    ∀ w : UWorld, (∀ j, 0 ≤ (w.Characters j).AttackAmount) →
      w.NotHealedIn (fired.foldl (fun w t => t.Callback.Execute E w) w) := by
  induction fired with
  | nil => intro w _; exact NotHealedIn_refl w
  | cons t rest ih =>
    intro w hA
    have h1 := Execute_NotHealedIn E t.Callback w hE hA
    exact NotHealedIn_trans h1 (ih _ (NotHealedIn_AttackAmount h1 hA))

theorem Tick_NotHealedIn (E : Engine) (DeltaTime : ℚ) (w : UWorld)
    (hE : ∀ target d causer, 0 ≤ d → 0 ≤ E.SuperTakeDamage target d causer)
    (hA : ∀ j, 0 ≤ (w.Characters j).AttackAmount) :
    w.NotHealedIn (Tick E DeltaTime w) := by
  unfold Tick
  exact fire_NotHealedIn E _ hE _ hA

theorem step_NotHealedIn (E : Engine) (op : Op) (w : UWorld)
    (hE : ∀ target d causer, 0 ≤ d → 0 ≤ E.SuperTakeDamage target d causer)
    (hA : ∀ j, 0 ≤ (w.Characters j).AttackAmount) (hop : op.NonNegativeDamage) :
    w.NotHealedIn (op.step E w) := by
  cases op with
  | Server_Attack self => exact Server_Attack_NotHealedIn E self w hE hA
  | SeekAndApplyDamage self => exact SeekAndApplyDamage_NotHealedIn E self w hE hA
  | TakeDamage self d causer => exact TakeDamage_NotHealedIn E self d causer w (hE _ _ _ hop)
  | Tick DeltaTime => exact Tick_NotHealedIn E DeltaTime w hE hA

theorem run_NotHealedIn (E : Engine) (ops : List Op)
    (hE : ∀ target d causer, 0 ≤ d → 0 ≤ E.SuperTakeDamage target d causer) :
    ∀ w : UWorld, (∀ j, 0 ≤ (w.Characters j).AttackAmount) →
      (∀ op ∈ ops, op.NonNegativeDamage) → w.NotHealedIn (run E w ops) := by
  induction ops with
  | nil => intro w _ _; exact NotHealedIn_refl w
  | cons op rest ih =>
    intro w hA hops
    have h1 := step_NotHealedIn E op w hE hA (hops op (List.mem_cons_self _ _))
    exact NotHealedIn_trans h1
      (ih _ (NotHealedIn_AttackAmount h1 hA) (fun o ho => hops o (List.mem_cons_of_mem _ ho)))

/-- C7, as stated, fails: with `AttackAmount = -10` and a parent class that
passes the amount through, the hit of character `0` raises the health of
character `1` above what it was. -/
theorem Health_rises_on_negative_AttackAmount :
    ((Scenario.Arena { Scenario.Fighter 0 with
        AttackAmount := -10, ApplyAttackDamageDelay := 0 }).Characters 1).Health <
      ((run Scenario.Physics
        (Scenario.Arena { Scenario.Fighter 0 with
          AttackAmount := -10, ApplyAttackDamageDelay := 0 })
        [Op.Server_Attack 0]).Characters 1).Health := by
  decide!

/-- C7, amended. When the parent class returns a non-negative amount for
every non-negative `DamageAmount`, every character's `AttackAmount` is
non-negative, and every direct `TakeDamage` passes a non-negative
`DamageAmount`, then after any sequence of `Server_Attack`,
`SeekAndApplyDamage`, `TakeDamage` and timer ticks no character's `Health`
is greater than before. -/
theorem Health_non_increasing (E : Engine) (w : UWorld) (ops : List Op)
    (hE : ∀ target d causer, 0 ≤ d → 0 ≤ E.SuperTakeDamage target d causer)
    (hA : ∀ j, 0 ≤ (w.Characters j).AttackAmount)
    (hops : ∀ op ∈ ops, op.NonNegativeDamage) (j : CharId) :
    ((run E w ops).Characters j).Health ≤ (w.Characters j).Health :=
  (run_NotHealedIn E ops hE w hA hops j).2

/-- C7, amended, at a concrete input: the arena, one request of character
`0` and a tick past the damage delay. -/
theorem Health_non_increasing_witness :
    ((run Scenario.Physics (Scenario.Arena (Scenario.Fighter 0))
        [Op.Server_Attack 0, Op.Tick (2 / 5)]).Characters 1).Health ≤
      ((Scenario.Arena (Scenario.Fighter 0)).Characters 1).Health :=
  Health_non_increasing Scenario.Physics (Scenario.Arena (Scenario.Fighter 0))
    [Op.Server_Attack 0, Op.Tick (2 / 5)]
    (fun _ _ _ h => h)
    (fun j => by
      by_cases hj : j = 0
      · simp [Scenario.Arena, Scenario.Fighter, hj]
      · simp [Scenario.Arena, Scenario.Fighter, hj])
    (fun op hop => by
      simp only [List.mem_cons, List.mem_singleton, List.not_mem_nil, or_false] at hop
      rcases hop with h | h <;> subst h <;> trivial)
    1

/-! ## Well-formed timers -/

theorem SameTimersIn_refl (w : UWorld) : w.SameTimersIn w :=
  ⟨rfl, fun _ => ⟨rfl, rfl⟩⟩

theorem TakeDamage_SameTimersIn (E : Engine) (self : CharId) (d : ℚ) (causer : Option CharId)
    (w : UWorld) : w.SameTimersIn (TakeDamage E self d causer w).2 := by
  refine ⟨rfl, fun j => ?_⟩
  rw [TakeDamage_Characters]
  by_cases hj : j = self
  · subst hj
    rw [Function.update_same]
    exact ⟨rfl, rfl⟩
  · rw [Function.update_noteq hj]
    exact ⟨rfl, rfl⟩

theorem SeekAndApplyDamage_SameTimersIn (E : Engine) (self : CharId) (w : UWorld) :
    w.SameTimersIn (SeekAndApplyDamage E self w) := by
  cases hc : HitCharacter E self w with
  | none =>
    rw [SeekAndApplyDamage_miss E self w hc]
    exact SameTimersIn_refl w
  | some target =>
    obtain ⟨Hit, h1, h2⟩ := (HitCharacter_eq_some E self w target).mp hc
    rw [SeekAndApplyDamage_hit E self w Hit target h1 h2]
    exact TakeDamage_SameTimersIn E target (w.Characters self).AttackAmount (some self)
      (w.emit (Event.LineTrace self (TraceStart (w.Characters self))
        (TraceEnd (w.Characters self)) self))

theorem WellFormed_of_SameTimersIn {w after : UWorld} (h : w.SameTimersIn after)
    (hwf : w.WellFormed) : after.WellFormed := by
  obtain ⟨ha, hb, hc, hd, he⟩ := hwf
  obtain ⟨htm, hch⟩ := h
  refine ⟨?_, ?_, ?_, ?_, ?_⟩
  · rw [htm]; exact ha
  · rw [htm]; exact hb
  · intro j
    rw [htm, (hch j).1, (hch j).2]
    exact hc j
  · intro t ht j hcb
    rw [htm] at ht
    rw [(hch j).1]
    exact hd t ht j hcb
  · intro t ht j hh
    rw [htm] at ht
    rw [(hch j).2] at hh
    exact he t ht j hh

theorem CoolingUntil_of_SameTimersIn {w after : UWorld} (h : w.SameTimersIn after)
    {self : CharId} {n : Nat} {e : ℚ} (hcool : w.CoolingUntil self n e) :
    after.CoolingUntil self n e := by
  obtain ⟨h0, h1, h2⟩ := hcool
  refine ⟨h0, ?_, ?_⟩
  · rw [(h.2 self).1]; exact h1
  · rw [h.1]; exact h2

theorem IsValid_false_iff (h : FTimerHandle) : h.IsValid = false ↔ h = ⟨0⟩ := by
  cases h with
  | mk n =>
    simp [FTimerHandle.IsValid]

/-- In a well-formed world no pending timer carries the invalid handle. -/
theorem WellFormed_filter_invalid {w : UWorld} (hwf : w.WellFormed) :
    w.TimerManager.ActiveTimers.filter (fun t => !(t.Handle == (⟨0⟩ : FTimerHandle))) =
      w.TimerManager.ActiveTimers := by
  rw [List.filter_eq_self]
  intro t ht
  have h := (hwf.1 t ht).1
  have hne : t.Handle ≠ (⟨0⟩ : FTimerHandle) := by
    intro heq
    rw [heq] at h
    exact absurd h (lt_irrefl 0)
  simpa using hne

theorem SetAttackTimer_ActiveTimers {w : UWorld} (hwf : w.WellFormed) (j : CharId)
    (hidle : (w.Characters j).AttackTimer.IsValid = false) :
    (SetAttackTimer j w).TimerManager.ActiveTimers =
      w.TimerManager.ActiveTimers ++
        (if 0 < (w.Characters j).AttackCooldownDuration then
          [⟨⟨w.TimerManager.LastAssignedHandle + 1⟩,
            w.TimerManager.InternalTime + (w.Characters j).AttackCooldownDuration,
            TimerCallback.InvalidateAttackTimer j⟩]
        else []) := by
  rw [SetAttackTimer_TimerManager, SetTimer_ActiveTimers, (IsValid_false_iff _).mp hidle,
    WellFormed_filter_invalid hwf]

theorem SetAttackTimer_AttackTimer (w : UWorld) (j k : CharId) :
    ((SetAttackTimer j w).Characters k).AttackTimer =
      if k = j then
        (if 0 < (w.Characters j).AttackCooldownDuration then
          ⟨w.TimerManager.LastAssignedHandle + 1⟩ else ⟨0⟩)
      else (w.Characters k).AttackTimer := by
  rw [SetAttackTimer_Characters]
  by_cases hk : k = j
  · subst hk
    rw [Function.update_same, if_pos rfl, SetTimer_handle]
  · rw [Function.update_noteq hk, if_neg hk]

theorem SetAttackTimer_ApplyAttackDamageTimer (w : UWorld) (j k : CharId) :
    ((SetAttackTimer j w).Characters k).ApplyAttackDamageTimer =
      (w.Characters k).ApplyAttackDamageTimer := by
  rw [SetAttackTimer_members j w k]

theorem WellFormed_SetAttackTimer {w : UWorld} (hwf : w.WellFormed) (j : CharId)
    (hidle : (w.Characters j).AttackTimer.IsValid = false) :
    (SetAttackTimer j w).WellFormed := by
  have hA := SetAttackTimer_ActiveTimers hwf j hidle
  have hz := (IsValid_false_iff _).mp hidle
  obtain ⟨ha, hb, hc, hd, he⟩ := hwf
  have hL : (SetAttackTimer j w).TimerManager.LastAssignedHandle =
      if 0 < (w.Characters j).AttackCooldownDuration then w.TimerManager.LastAssignedHandle + 1
      else w.TimerManager.LastAssignedHandle := by
    rw [SetAttackTimer_TimerManager, SetTimer_LastAssignedHandle]
  by_cases hpos : 0 < (w.Characters j).AttackCooldownDuration
  · simp only [hpos, if_true] at hA hL
    refine ⟨?_, ?_, ?_, ?_, ?_⟩
    · intro t ht
      rw [hA] at ht
      rw [hL]
      rcases List.mem_append.mp ht with h | h
      · exact ⟨(ha t h).1, Nat.le_succ_of_le (ha t h).2⟩
      · rw [List.mem_singleton] at h
        subst h
        exact ⟨Nat.succ_pos _, le_refl _⟩
    · rw [hA, List.map_append, List.nodup_append]
      refine ⟨hb, by simp, ?_⟩
      intro x hx hx2
      simp only [List.map_cons, List.map_nil, List.mem_singleton] at hx2
      obtain ⟨t, ht, rfl⟩ := List.mem_map.mp hx
      have := (ha t ht).2
      rw [hx2] at this
      exact absurd this (Nat.not_succ_le_self _)
    · intro k
      rw [hL, SetAttackTimer_AttackTimer, SetAttackTimer_ApplyAttackDamageTimer]
      refine ⟨?_, Nat.le_succ_of_le (hc k).2⟩
      by_cases hk : k = j
      · simp [hk, hpos]
      · simp only [hk, if_false]
        exact Nat.le_succ_of_le (hc k).1
    · intro t ht k hcb
      rw [hA] at ht
      rw [SetAttackTimer_AttackTimer]
      rcases List.mem_append.mp ht with h | h
      · have h1 := hd t h k hcb
        by_cases hk : k = j
        · subst hk
          rw [hz] at h1
          have := (ha t h).1
          rw [h1] at this
          exact absurd this (lt_irrefl 0)
        · simp only [hk, if_false]
          exact h1
      · rw [List.mem_singleton] at h
        subst h
        simp only [TimerCallback.InvalidateAttackTimer.injEq] at hcb
        subst hcb
        simp [hpos]
    · intro t ht k hh
      rw [hA] at ht
      rw [SetAttackTimer_ApplyAttackDamageTimer] at hh
      rcases List.mem_append.mp ht with h | h
      · exact he t h k hh
      · rw [List.mem_singleton] at h
        subst h
        have := (hc k).2
        rw [← hh] at this
        exact absurd this (Nat.not_succ_le_self _)
  · simp only [hpos, if_false, List.append_nil] at hA hL
    refine ⟨?_, ?_, ?_, ?_, ?_⟩
    · intro t ht
      rw [hA] at ht
      rw [hL]
      exact ha t ht
    · rw [hA]; exact hb
    · intro k
      rw [hL, SetAttackTimer_AttackTimer, SetAttackTimer_ApplyAttackDamageTimer]
      refine ⟨?_, (hc k).2⟩
      by_cases hk : k = j
      · simp [hk, hpos]
      · simp only [hk, if_false]
        exact (hc k).1
    · intro t ht k hcb
      rw [hA] at ht
      rw [SetAttackTimer_AttackTimer]
      have h1 := hd t ht k hcb
      by_cases hk : k = j
      · subst hk
        rw [hz] at h1
        have := (ha t ht).1
        rw [h1] at this
        exact absurd this (lt_irrefl 0)
      · simp only [hk, if_false]
        exact h1
    · intro t ht k hh
      rw [hA] at ht
      rw [SetAttackTimer_ApplyAttackDamageTimer] at hh
      exact he t ht k hh


theorem SetApplyAttackDamageTimer_AttackTimer (w : UWorld) (j k : CharId) :
    ((SetApplyAttackDamageTimer j w).Characters k).AttackTimer =
      (w.Characters k).AttackTimer := by
  rw [SetApplyAttackDamageTimer_Characters]
  by_cases hk : k = j
  · subst hk
    rw [Function.update_same]
  · rw [Function.update_noteq hk]

theorem SetApplyAttackDamageTimer_handle (w : UWorld) (j k : CharId) :
    ((SetApplyAttackDamageTimer j w).Characters k).ApplyAttackDamageTimer =
      if k = j then
        (if 0 < AttackDelay (w.Characters j) then
          ⟨w.TimerManager.LastAssignedHandle + 1⟩ else ⟨0⟩)
      else (w.Characters k).ApplyAttackDamageTimer := by
  rw [SetApplyAttackDamageTimer_Characters]
  by_cases hk : k = j
  · subst hk
    rw [Function.update_same, if_pos rfl, SetTimer_handle]
  · rw [Function.update_noteq hk, if_neg hk]

theorem WellFormed_SetApplyAttackDamageTimer {w : UWorld} (hwf : w.WellFormed) (j : CharId) :
    (SetApplyAttackDamageTimer j w).WellFormed := by
  obtain ⟨ha, hb, hc, hd, he⟩ := hwf
  have hA : (SetApplyAttackDamageTimer j w).TimerManager.ActiveTimers =
      w.TimerManager.ActiveTimers.filter
          (fun t => !(t.Handle == (w.Characters j).ApplyAttackDamageTimer)) ++
        (if 0 < AttackDelay (w.Characters j) then
          [⟨⟨w.TimerManager.LastAssignedHandle + 1⟩,
            w.TimerManager.InternalTime + AttackDelay (w.Characters j),
            TimerCallback.SeekAndApplyDamage j⟩]
        else []) := by
    rw [SetApplyAttackDamageTimer_TimerManager, SetTimer_ActiveTimers]
  have hL : (SetApplyAttackDamageTimer j w).TimerManager.LastAssignedHandle =
      if 0 < AttackDelay (w.Characters j) then w.TimerManager.LastAssignedHandle + 1
      else w.TimerManager.LastAssignedHandle := by
    rw [SetApplyAttackDamageTimer_TimerManager, SetTimer_LastAssignedHandle]
  have hsub : ∀ t ∈ w.TimerManager.ActiveTimers.filter
      (fun t => !(t.Handle == (w.Characters j).ApplyAttackDamageTimer)),
      t ∈ w.TimerManager.ActiveTimers ∧ t.Handle ≠ (w.Characters j).ApplyAttackDamageTimer := by
    intro t ht
    have := List.mem_filter.mp ht
    exact ⟨this.1, by simpa using this.2⟩
  have hnd : (List.map (fun t => t.Handle) (w.TimerManager.ActiveTimers.filter
      (fun t => !(t.Handle == (w.Characters j).ApplyAttackDamageTimer)))).Nodup :=
    hb.sublist (List.Sublist.map _ (List.filter_sublist _))
  by_cases hpos : 0 < AttackDelay (w.Characters j)
  · simp only [hpos, if_true] at hA hL
    refine ⟨?_, ?_, ?_, ?_, ?_⟩
    · intro t ht
      rw [hA] at ht
      rw [hL]
      rcases List.mem_append.mp ht with h | h
      · have h1 := ha t (hsub t h).1
        exact ⟨h1.1, Nat.le_succ_of_le h1.2⟩
      · rw [List.mem_singleton] at h
        subst h
        exact ⟨Nat.succ_pos _, le_refl _⟩
    · rw [hA, List.map_append, List.nodup_append]
      refine ⟨hnd, by simp, ?_⟩
      intro x hx hx2
      simp only [List.map_cons, List.map_nil, List.mem_singleton] at hx2
      obtain ⟨t, ht, rfl⟩ := List.mem_map.mp hx
      have := (ha t (hsub t ht).1).2
      rw [hx2] at this
      exact absurd this (Nat.not_succ_le_self _)
    · intro k
      rw [hL, SetApplyAttackDamageTimer_AttackTimer, SetApplyAttackDamageTimer_handle]
      refine ⟨Nat.le_succ_of_le (hc k).1, ?_⟩
      by_cases hk : k = j
      · simp [hk, hpos]
      · simp only [hk, if_false]
        exact Nat.le_succ_of_le (hc k).2
    · intro t ht k hcb
      rw [hA] at ht
      rw [SetApplyAttackDamageTimer_AttackTimer]
      rcases List.mem_append.mp ht with h | h
      · exact hd t (hsub t h).1 k hcb
      · rw [List.mem_singleton] at h
        subst h
        exact absurd hcb (by simp)
    · intro t ht k hh
      rw [hA] at ht
      rw [SetApplyAttackDamageTimer_handle] at hh
      rcases List.mem_append.mp ht with h | h
      · have h1 := hsub t h
        by_cases hk : k = j
        · simp only [hk, if_true, hpos] at hh
          have := (ha t h1.1).2
          rw [hh] at this
          exact absurd this (Nat.not_succ_le_self _)
        · simp only [hk, if_false] at hh
          exact he t h1.1 k hh
      · rw [List.mem_singleton] at h
        subst h
        by_cases hk : k = j
        · rw [hk]
        · simp only [hk, if_false] at hh
          have := (hc k).2
          rw [← hh] at this
          exact absurd this (Nat.not_succ_le_self _)
  · simp only [hpos, if_false, List.append_nil] at hA hL
    refine ⟨?_, ?_, ?_, ?_, ?_⟩
    · intro t ht
      rw [hA] at ht
      rw [hL]
      exact ha t (hsub t ht).1
    · rw [hA]; exact hnd
    · intro k
      rw [hL, SetApplyAttackDamageTimer_AttackTimer, SetApplyAttackDamageTimer_handle]
      refine ⟨(hc k).1, ?_⟩
      by_cases hk : k = j
      · simp [hk, hpos]
      · simp only [hk, if_false]
        exact (hc k).2
    · intro t ht k hcb
      rw [hA] at ht
      rw [SetApplyAttackDamageTimer_AttackTimer]
      exact hd t (hsub t ht).1 k hcb
    · intro t ht k hh
      rw [hA] at ht
      rw [SetApplyAttackDamageTimer_handle] at hh
      have h1 := hsub t ht
      by_cases hk : k = j
      · simp only [hk, if_true, hpos, if_false] at hh
        have := (ha t h1.1).1
        rw [hh] at this
        exact absurd this (lt_irrefl 0)
      · simp only [hk, if_false] at hh
        exact he t h1.1 k hh

theorem CoolingUntil_SetAttackTimer {w : UWorld} (hwf : w.WellFormed) (j : CharId)
    (hidle : (w.Characters j).AttackTimer.IsValid = false)
    {self : CharId} {n : Nat} {e : ℚ} (hcool : w.CoolingUntil self n e) :
    (SetAttackTimer j w).CoolingUntil self n e := by
  obtain ⟨h0, h1, h2⟩ := hcool
  have hne : self ≠ j := by
    intro heq
    subst heq
    rw [h1] at hidle
    simp [FTimerHandle.IsValid] at hidle
    omega
  refine ⟨h0, ?_, ?_⟩
  · rw [SetAttackTimer_AttackTimer, if_neg hne]
    exact h1
  · rw [SetAttackTimer_ActiveTimers hwf j hidle]
    exact List.mem_append_left _ h2

theorem CoolingUntil_SetApplyAttackDamageTimer {w : UWorld} (hwf : w.WellFormed) (j : CharId)
    {self : CharId} {n : Nat} {e : ℚ} (hcool : w.CoolingUntil self n e) :
    (SetApplyAttackDamageTimer j w).CoolingUntil self n e := by
  obtain ⟨h0, h1, h2⟩ := hcool
  refine ⟨h0, ?_, ?_⟩
  · rw [SetApplyAttackDamageTimer_AttackTimer]
    exact h1
  · rw [SetApplyAttackDamageTimer_TimerManager, SetTimer_ActiveTimers]
    apply List.mem_append_left
    rw [List.mem_filter]
    refine ⟨h2, ?_⟩
    have hne : (⟨n⟩ : FTimerHandle) ≠ (w.Characters j).ApplyAttackDamageTimer := by
      intro heq
      have := hwf.2.2.2.2 _ h2 j heq
      exact absurd this (by simp)
    simpa using hne

theorem emit_SameTimersIn (w : UWorld) (e : Event) : w.SameTimersIn (w.emit e) :=
  ⟨rfl, fun _ => ⟨rfl, rfl⟩⟩

theorem WellFormed_Server_Attack (E : Engine) (j : CharId) {w : UWorld} (hwf : w.WellFormed) :
    (Server_Attack_Implementation E j w).WellFormed := by
  by_cases hv : (w.Characters j).AttackTimer.IsValid = true
  · rw [Server_Attack_dropped E j w hv]
    exact hwf
  · have hacc : (w.Characters j).AttackTimer.IsValid = false := by
      simpa using hv
    have h1 := WellFormed_SetAttackTimer hwf j hacc
    by_cases hd : 0 < (w.Characters j).ApplyAttackDamageDelay
    · rw [Server_Attack_delayed E j w hacc hd]
      exact WellFormed_of_SameTimersIn (emit_SameTimersIn _ _)
        (WellFormed_SetApplyAttackDamageTimer h1 j)
    · rw [Server_Attack_immediate E j w hacc (not_lt.mp hd)]
      exact WellFormed_of_SameTimersIn (emit_SameTimersIn _ _)
        (WellFormed_of_SameTimersIn (SeekAndApplyDamage_SameTimersIn E j _) h1)

theorem CoolingUntil_Server_Attack (E : Engine) (j : CharId) {w : UWorld} (hwf : w.WellFormed)
    {self : CharId} {n : Nat} {e : ℚ} (hcool : w.CoolingUntil self n e) :
    (Server_Attack_Implementation E j w).CoolingUntil self n e := by
  by_cases hv : (w.Characters j).AttackTimer.IsValid = true
  · rw [Server_Attack_dropped E j w hv]
    exact hcool
  · have hacc : (w.Characters j).AttackTimer.IsValid = false := by
      simpa using hv
    have h1 := WellFormed_SetAttackTimer hwf j hacc
    have c1 := CoolingUntil_SetAttackTimer hwf j hacc hcool
    by_cases hd : 0 < (w.Characters j).ApplyAttackDamageDelay
    · rw [Server_Attack_delayed E j w hacc hd]
      exact CoolingUntil_of_SameTimersIn (emit_SameTimersIn _ _)
        (CoolingUntil_SetApplyAttackDamageTimer h1 j c1)
    · rw [Server_Attack_immediate E j w hacc (not_lt.mp hd)]
      exact CoolingUntil_of_SameTimersIn (emit_SameTimersIn _ _)
        (CoolingUntil_of_SameTimersIn (SeekAndApplyDamage_SameTimersIn E j _) c1)


/-! ## Timer firing -/

theorem Execute_TimerManager (E : Engine) (cb : TimerCallback) (w : UWorld) :
    (cb.Execute E w).TimerManager = w.TimerManager := by
  cases cb with
  | InvalidateAttackTimer self => rfl
  | SeekAndApplyDamage self => exact (SeekAndApplyDamage_SameTimersIn E self w).1

theorem Execute_ApplyAttackDamageTimer (E : Engine) (cb : TimerCallback) (w : UWorld)
    (j : CharId) :
    ((cb.Execute E w).Characters j).ApplyAttackDamageTimer =
      (w.Characters j).ApplyAttackDamageTimer := by
  cases cb with
  | InvalidateAttackTimer self =>
    simp only [TimerCallback.Execute, setCharacter_Characters]
    by_cases hj : j = self
    · subst hj
      rw [Function.update_same]
    · rw [Function.update_noteq hj]
  | SeekAndApplyDamage self => exact ((SeekAndApplyDamage_SameTimersIn E self w).2 j).2

theorem Execute_AttackTimer (E : Engine) (cb : TimerCallback) (w : UWorld) (j : CharId) :
    ((cb.Execute E w).Characters j).AttackTimer =
      if cb = TimerCallback.InvalidateAttackTimer j then ⟨0⟩ else (w.Characters j).AttackTimer := by
  cases cb with
  | InvalidateAttackTimer self =>
    simp only [TimerCallback.Execute, setCharacter_Characters,
      TimerCallback.InvalidateAttackTimer.injEq]
    by_cases hj : j = self
    · subst hj
      rw [Function.update_same, if_pos rfl]
      rfl
    · rw [Function.update_noteq hj, if_neg (fun h => hj h.symm)]
  | SeekAndApplyDamage self =>
    rw [if_neg (by simp)]
    exact ((SeekAndApplyDamage_SameTimersIn E self w).2 j).1

/-- Effect of running a list of timer lambdas on the timers: the timer
manager and the damage handles are untouched, and the `AttackTimer` of `j`
is invalidated exactly when the cooldown lambda of `j` is among them. -/
theorem fire_timers (E : Engine) (fired : List FTimerData) :
    ∀ w : UWorld,
      (fired.foldl (fun w t => t.Callback.Execute E w) w).TimerManager = w.TimerManager ∧
      ∀ j,
        ((fired.foldl (fun w t => t.Callback.Execute E w) w).Characters j).ApplyAttackDamageTimer =
          (w.Characters j).ApplyAttackDamageTimer ∧
        ((fired.foldl (fun w t => t.Callback.Execute E w) w).Characters j).AttackTimer =
          if (∃ t ∈ fired, t.Callback = TimerCallback.InvalidateAttackTimer j) then ⟨0⟩
          else (w.Characters j).AttackTimer := by
  induction fired with
  | nil =>
    intro w
    exact ⟨rfl, fun j => ⟨rfl, by simp⟩⟩
  | cons t rest ih =>
    intro w
    obtain ⟨h1, h2⟩ := ih (t.Callback.Execute E w)
    simp only [List.foldl_cons]
    refine ⟨h1.trans (Execute_TimerManager E _ w), fun j => ⟨?_, ?_⟩⟩
    · rw [(h2 j).1, Execute_ApplyAttackDamageTimer]
    · rw [(h2 j).2, Execute_AttackTimer]
      by_cases hr : ∃ t ∈ rest, t.Callback = TimerCallback.InvalidateAttackTimer j
      · have hall : ∃ u ∈ t :: rest, u.Callback = TimerCallback.InvalidateAttackTimer j := by
          obtain ⟨u, hu, hcb⟩ := hr
          exact ⟨u, List.mem_cons_of_mem _ hu, hcb⟩
        rw [if_pos hr, if_pos hall]
      · rw [if_neg hr]
        by_cases ht : t.Callback = TimerCallback.InvalidateAttackTimer j
        · rw [if_pos ht, if_pos ⟨t, List.mem_cons_self _ _, ht⟩]
        · have hall : ¬ ∃ u ∈ t :: rest, u.Callback = TimerCallback.InvalidateAttackTimer j := by
            rintro ⟨u, hu, hcb⟩
            rcases List.mem_cons.mp hu with h | h
            · subst h
              exact ht hcb
            · exact hr ⟨u, h, hcb⟩
          rw [if_neg ht, if_neg hall]

theorem mem_Expired (tm : FTimerManager) (now : ℚ) (t : FTimerData) :
    t ∈ tm.Expired now ↔ t ∈ tm.ActiveTimers ∧ t.ExpireTime < now := by
  unfold FTimerManager.Expired
  rw [(List.perm_insertionSort _ _).mem_iff, List.mem_filter]
  simp

theorem Tick_InternalTime (E : Engine) (DeltaTime : ℚ) (w : UWorld) :
    (Tick E DeltaTime w).TimerManager.InternalTime = w.TimerManager.InternalTime + DeltaTime := by
  unfold Tick
  rw [(fire_timers E _ _).1]

theorem Tick_LastAssignedHandle (E : Engine) (DeltaTime : ℚ) (w : UWorld) :
    (Tick E DeltaTime w).TimerManager.LastAssignedHandle =
      w.TimerManager.LastAssignedHandle := by
  unfold Tick
  rw [(fire_timers E _ _).1]

theorem Tick_ActiveTimers (E : Engine) (DeltaTime : ℚ) (w : UWorld) :
    (Tick E DeltaTime w).TimerManager.ActiveTimers =
      w.TimerManager.ActiveTimers.filter
        (fun t => !decide (t.ExpireTime < w.TimerManager.InternalTime + DeltaTime)) := by
  unfold Tick
  rw [(fire_timers E _ _).1]

theorem Tick_ApplyAttackDamageTimer (E : Engine) (DeltaTime : ℚ) (w : UWorld) (j : CharId) :
    ((Tick E DeltaTime w).Characters j).ApplyAttackDamageTimer =
      (w.Characters j).ApplyAttackDamageTimer := by
  unfold Tick
  rw [((fire_timers E _ _).2 j).1]

theorem Tick_AttackTimer (E : Engine) (DeltaTime : ℚ) (w : UWorld) (j : CharId) :
    ((Tick E DeltaTime w).Characters j).AttackTimer =
      if (∃ t ∈ w.TimerManager.ActiveTimers,
          t.ExpireTime < w.TimerManager.InternalTime + DeltaTime ∧
          t.Callback = TimerCallback.InvalidateAttackTimer j) then ⟨0⟩
      else (w.Characters j).AttackTimer := by
  unfold Tick
  rw [((fire_timers E _ _).2 j).2]
  have hiff : (∃ t ∈ w.TimerManager.Expired (w.TimerManager.InternalTime + DeltaTime),
      t.Callback = TimerCallback.InvalidateAttackTimer j) ↔
      (∃ t ∈ w.TimerManager.ActiveTimers,
          t.ExpireTime < w.TimerManager.InternalTime + DeltaTime ∧
          t.Callback = TimerCallback.InvalidateAttackTimer j) := by
    constructor
    · rintro ⟨t, ht, hcb⟩
      have := (mem_Expired _ _ t).mp ht
      exact ⟨t, this.1, this.2, hcb⟩
    · rintro ⟨t, ht, hlt, hcb⟩
      exact ⟨t, (mem_Expired _ _ t).mpr ⟨ht, hlt⟩, hcb⟩
  by_cases h : ∃ t ∈ w.TimerManager.ActiveTimers,
      t.ExpireTime < w.TimerManager.InternalTime + DeltaTime ∧
      t.Callback = TimerCallback.InvalidateAttackTimer j
  · rw [if_pos h, if_pos (hiff.mpr h)]
  · rw [if_neg h, if_neg (fun h2 => h (hiff.mp h2))]

theorem WellFormed_Tick (E : Engine) (DeltaTime : ℚ) {w : UWorld} (hwf : w.WellFormed) :
    (Tick E DeltaTime w).WellFormed := by
  obtain ⟨ha, hb, hc, hd, he⟩ := hwf
  have hsub : ∀ t ∈ (Tick E DeltaTime w).TimerManager.ActiveTimers,
      t ∈ w.TimerManager.ActiveTimers ∧
        ¬ t.ExpireTime < w.TimerManager.InternalTime + DeltaTime := by
    intro t ht
    rw [Tick_ActiveTimers] at ht
    have := List.mem_filter.mp ht
    exact ⟨this.1, by simpa using this.2⟩
  refine ⟨?_, ?_, ?_, ?_, ?_⟩
  · intro t ht
    rw [Tick_LastAssignedHandle]
    exact ha t (hsub t ht).1
  · rw [Tick_ActiveTimers]
    exact hb.sublist (List.Sublist.map _ (List.filter_sublist _))
  · intro j
    rw [Tick_LastAssignedHandle, Tick_ApplyAttackDamageTimer, Tick_AttackTimer]
    refine ⟨?_, (hc j).2⟩
    split_ifs
    · exact Nat.zero_le _
    · exact (hc j).1
  · intro t ht j hcb
    obtain ⟨hmem, hnot⟩ := hsub t ht
    rw [Tick_AttackTimer]
    have hfalse : ¬ ∃ u ∈ w.TimerManager.ActiveTimers,
        u.ExpireTime < w.TimerManager.InternalTime + DeltaTime ∧
        u.Callback = TimerCallback.InvalidateAttackTimer j := by
      rintro ⟨u, hu, hlt, hucb⟩
      have hh : u.Handle = t.Handle := (hd u hu j hucb).trans (hd t hmem j hcb).symm
      have hut : u = t := List.inj_on_of_nodup_map hb hu hmem hh
      rw [hut] at hlt
      exact hnot hlt
    rw [if_neg hfalse]
    exact hd t hmem j hcb
  · intro t ht j hh
    rw [Tick_ApplyAttackDamageTimer] at hh
    exact he t (hsub t ht).1 j hh

theorem CoolingUntil_Tick (E : Engine) (DeltaTime : ℚ) {w : UWorld} (hwf : w.WellFormed)
    {self : CharId} {n : Nat} {e : ℚ} (hcool : w.CoolingUntil self n e)
    (hle : w.TimerManager.InternalTime + DeltaTime ≤ e) :
    (Tick E DeltaTime w).CoolingUntil self n e := by
  obtain ⟨h0, h1, h2⟩ := hcool
  refine ⟨h0, ?_, ?_⟩
  · rw [Tick_AttackTimer]
    have hfalse : ¬ ∃ u ∈ w.TimerManager.ActiveTimers,
        u.ExpireTime < w.TimerManager.InternalTime + DeltaTime ∧
        u.Callback = TimerCallback.InvalidateAttackTimer self := by
      rintro ⟨u, hu, hlt, hucb⟩
      have hh : u.Handle = (⟨n⟩ : FTimerHandle) := (hwf.2.2.2.1 u hu self hucb).trans h1
      have hut : u = ⟨⟨n⟩, e, TimerCallback.InvalidateAttackTimer self⟩ :=
        List.inj_on_of_nodup_map hwf.2.1 hu h2 hh
      rw [hut] at hlt
      exact absurd (lt_of_lt_of_le hlt hle) (lt_irrefl _)
    rw [if_neg hfalse]
    exact h1
  · rw [Tick_ActiveTimers, List.mem_filter]
    refine ⟨h2, ?_⟩
    simpa using hle

theorem Tick_ends_cooldown (E : Engine) (DeltaTime : ℚ) {w : UWorld}
    {self : CharId} {n : Nat} {e : ℚ} (hcool : w.CoolingUntil self n e)
    (hlt : e < w.TimerManager.InternalTime + DeltaTime) :
    ((Tick E DeltaTime w).Characters self).AttackTimer = ⟨0⟩ := by
  rw [Tick_AttackTimer, if_pos ⟨_, hcool.2.2, hlt, rfl⟩]

theorem Tick_keeps_idle (E : Engine) (DeltaTime : ℚ) {w : UWorld} {self : CharId}
    (hidle : (w.Characters self).AttackTimer = ⟨0⟩) :
    ((Tick E DeltaTime w).Characters self).AttackTimer = ⟨0⟩ := by
  rw [Tick_AttackTimer]
  split_ifs
  · rfl
  · exact hidle


/-! ## Accepted requests and the clock -/

theorem AcceptedCount_emit (self : CharId) (w : UWorld) (e : Event) :
    AcceptedCount self (w.emit e) =
      AcceptedCount self w + if e = Event.OnAttackAttempted self then 1 else 0 := by
  unfold AcceptedCount
  rw [emit_Log, List.count_append, List.count_singleton]
  simp only [beq_iff_eq]

theorem AcceptedCount_TakeDamage (E : Engine) (self j : CharId) (d : ℚ)
    (causer : Option CharId) (w : UWorld) :
    AcceptedCount self (TakeDamage E j d causer w).2 = AcceptedCount self w := by
  unfold AcceptedCount
  rw [TakeDamage_Log, List.count_append, List.count_singleton]
  simp

theorem AcceptedCount_SeekAndApplyDamage (E : Engine) (self j : CharId) (w : UWorld) :
    AcceptedCount self (SeekAndApplyDamage E j w) = AcceptedCount self w := by
  cases hc : HitCharacter E j w with
  | none =>
    rw [SeekAndApplyDamage_miss E j w hc, AcceptedCount_emit]
    simp
  | some target =>
    obtain ⟨Hit, h1, h2⟩ := (HitCharacter_eq_some E j w target).mp hc
    rw [SeekAndApplyDamage_hit E j w Hit target h1 h2, AcceptedCount_emit,
      AcceptedCount_TakeDamage, AcceptedCount_emit]
    simp

theorem AcceptedCount_SetAttackTimer (self j : CharId) (w : UWorld) :
    AcceptedCount self (SetAttackTimer j w) = AcceptedCount self w := by
  unfold AcceptedCount
  rw [SetAttackTimer_Log, List.count_append, List.count_singleton]
  simp

theorem AcceptedCount_SetApplyAttackDamageTimer (self j : CharId) (w : UWorld) :
    AcceptedCount self (SetApplyAttackDamageTimer j w) = AcceptedCount self w := by
  unfold AcceptedCount
  rw [SetApplyAttackDamageTimer_Log, List.count_append, List.count_singleton]
  simp

/-- An accepted request of `j` adds one to the count of `j` and nothing to
the count of any other character. -/
theorem AcceptedCount_Server_Attack_accepted (E : Engine) (self j : CharId) (w : UWorld)
    (hacc : (w.Characters j).AttackTimer.IsValid = false) :
    AcceptedCount self (Server_Attack_Implementation E j w) =
      AcceptedCount self w + if j = self then 1 else 0 := by
  by_cases hd : 0 < (w.Characters j).ApplyAttackDamageDelay
  · rw [Server_Attack_delayed E j w hacc hd, AcceptedCount_emit,
      AcceptedCount_SetApplyAttackDamageTimer, AcceptedCount_SetAttackTimer]
    simp
  · rw [Server_Attack_immediate E j w hacc (not_lt.mp hd), AcceptedCount_emit,
      AcceptedCount_SeekAndApplyDamage, AcceptedCount_SetAttackTimer]
    simp

theorem AcceptedCount_Execute (E : Engine) (self : CharId) (cb : TimerCallback) (w : UWorld) :
    AcceptedCount self (cb.Execute E w) = AcceptedCount self w := by
  cases cb with
  | InvalidateAttackTimer j => rfl
  | SeekAndApplyDamage j => exact AcceptedCount_SeekAndApplyDamage E self j w

theorem AcceptedCount_fire (E : Engine) (self : CharId) (fired : List FTimerData) :
    ∀ w : UWorld,
      AcceptedCount self (fired.foldl (fun w t => t.Callback.Execute E w) w) =
        AcceptedCount self w := by
  induction fired with
  | nil => intro w; rfl
  | cons t rest ih =>
    intro w
    rw [List.foldl_cons, ih, AcceptedCount_Execute]

theorem AcceptedCount_Tick (E : Engine) (self : CharId) (DeltaTime : ℚ) (w : UWorld) :
    AcceptedCount self (Tick E DeltaTime w) = AcceptedCount self w := by
  unfold Tick
  rw [AcceptedCount_fire]
  rfl

theorem AcceptedCount_step_le (E : Engine) (self : CharId) (op : Op) (w : UWorld) :
    AcceptedCount self w ≤ AcceptedCount self (op.step E w) := by
  cases op with
  | Server_Attack j =>
    by_cases hv : (w.Characters j).AttackTimer.IsValid = true
    · simp only [Op.step]
      rw [Server_Attack_dropped E j w hv]
    · simp only [Op.step]
      rw [AcceptedCount_Server_Attack_accepted E self j w (by simpa using hv)]
      exact Nat.le_add_right _ _
  | SeekAndApplyDamage j => exact (AcceptedCount_SeekAndApplyDamage E self j w).ge
  | TakeDamage j d causer => exact (AcceptedCount_TakeDamage E self j d causer w).ge
  | Tick DeltaTime => exact (AcceptedCount_Tick E self DeltaTime w).ge

theorem AcceptedCount_run_le (E : Engine) (self : CharId) (ops : List Op) :
    ∀ w : UWorld, AcceptedCount self w ≤ AcceptedCount self (run E w ops) := by
  induction ops with
  | nil => intro w; exact le_refl _
  | cons op rest ih =>
    intro w
    exact (AcceptedCount_step_le E self op w).trans (ih _)

theorem Server_Attack_InternalTime (E : Engine) (j : CharId) (w : UWorld) :
    (Server_Attack_Implementation E j w).TimerManager.InternalTime = w.TimerManager.InternalTime := by
  by_cases hv : (w.Characters j).AttackTimer.IsValid = true
  · rw [Server_Attack_dropped E j w hv]
  · have hacc : (w.Characters j).AttackTimer.IsValid = false := by
      simpa using hv
    by_cases hd : 0 < (w.Characters j).ApplyAttackDamageDelay
    · rw [Server_Attack_delayed E j w hacc hd, emit_TimerManager,
        SetApplyAttackDamageTimer_TimerManager, SetTimer_InternalTime,
        SetAttackTimer_TimerManager, SetTimer_InternalTime]
    · rw [Server_Attack_immediate E j w hacc (not_lt.mp hd), emit_TimerManager,
        (SeekAndApplyDamage_SameTimersIn E j _).1, SetAttackTimer_TimerManager,
        SetTimer_InternalTime]

theorem step_InternalTime (E : Engine) (op : Op) (w : UWorld) :
    (op.step E w).TimerManager.InternalTime =
      match op with
      | Op.Tick DeltaTime => w.TimerManager.InternalTime + DeltaTime
      | _ => w.TimerManager.InternalTime := by
  cases op with
  | Server_Attack j => exact Server_Attack_InternalTime E j w
  | SeekAndApplyDamage j =>
    simp only [Op.step]
    rw [(SeekAndApplyDamage_SameTimersIn E j w).1]
  | TakeDamage j d causer => rfl
  | Tick DeltaTime => exact Tick_InternalTime E DeltaTime w

theorem step_InternalTime_le (E : Engine) (op : Op) (w : UWorld) (hop : op.Valid) :
    w.TimerManager.InternalTime ≤ (op.step E w).TimerManager.InternalTime := by
  rw [step_InternalTime]
  cases op with
  | Tick DeltaTime => exact le_add_of_nonneg_right hop
  | Server_Attack j => exact le_refl _
  | SeekAndApplyDamage j => exact le_refl _
  | TakeDamage j d causer => exact le_refl _

theorem run_InternalTime_le (E : Engine) (ops : List Op) :
    ∀ w : UWorld, (∀ op ∈ ops, op.Valid) →
      w.TimerManager.InternalTime ≤ (run E w ops).TimerManager.InternalTime := by
  induction ops with
  | nil => intro w _; exact le_refl _
  | cons op rest ih =>
    intro w hops
    exact (step_InternalTime_le E op w (hops op (List.mem_cons_self _ _))).trans
      (ih _ (fun o ho => hops o (List.mem_cons_of_mem _ ho)))

theorem Server_Attack_AttackTimer_other (E : Engine) (j k : CharId) (w : UWorld) (hk : k ≠ j) :
    ((Server_Attack_Implementation E j w).Characters k).AttackTimer = (w.Characters k).AttackTimer := by
  by_cases hv : (w.Characters j).AttackTimer.IsValid = true
  · rw [Server_Attack_dropped E j w hv]
  · have hacc : (w.Characters j).AttackTimer.IsValid = false := by
      simpa using hv
    by_cases hd : 0 < (w.Characters j).ApplyAttackDamageDelay
    · rw [Server_Attack_delayed E j w hacc hd, emit_Characters,
        SetApplyAttackDamageTimer_AttackTimer, SetAttackTimer_AttackTimer, if_neg hk]
    · rw [Server_Attack_immediate E j w hacc (not_lt.mp hd), emit_Characters,
        ((SeekAndApplyDamage_SameTimersIn E j _).2 k).1, SetAttackTimer_AttackTimer, if_neg hk]

/-- An accepted request with a positive cooldown starts the cooldown: the
`AttackTimer` of `self` is the fresh handle, and its lambda is pending, to
expire one cooldown after the request. -/
theorem Server_Attack_starts_cooldown (E : Engine) (self : CharId) {w : UWorld}
    (hwf : w.WellFormed) (hidle : (w.Characters self).AttackTimer.IsValid = false)
    (hc : 0 < (w.Characters self).AttackCooldownDuration) :
    (Server_Attack_Implementation E self w).CoolingUntil self (w.TimerManager.LastAssignedHandle + 1)
      (w.TimerManager.InternalTime + (w.Characters self).AttackCooldownDuration) := by
  have h1 := WellFormed_SetAttackTimer hwf self hidle
  have c1 : (SetAttackTimer self w).CoolingUntil self (w.TimerManager.LastAssignedHandle + 1)
      (w.TimerManager.InternalTime + (w.Characters self).AttackCooldownDuration) := by
    refine ⟨Nat.succ_pos _, ?_, ?_⟩
    · rw [SetAttackTimer_AttackTimer, if_pos rfl, if_pos hc]
    · rw [SetAttackTimer_ActiveTimers hwf self hidle, if_pos hc]
      exact List.mem_append_right _ (List.mem_singleton_self _)
  by_cases hd : 0 < (w.Characters self).ApplyAttackDamageDelay
  · rw [Server_Attack_delayed E self w hidle hd]
    exact CoolingUntil_of_SameTimersIn (emit_SameTimersIn _ _)
      (CoolingUntil_SetApplyAttackDamageTimer h1 self c1)
  · rw [Server_Attack_immediate E self w hidle (not_lt.mp hd)]
    exact CoolingUntil_of_SameTimersIn (emit_SameTimersIn _ _)
      (CoolingUntil_of_SameTimersIn (SeekAndApplyDamage_SameTimersIn E self _) c1)

theorem CoolingUntil_IsValid {w : UWorld} {self : CharId} {n : Nat} {e : ℚ}
    (hcool : w.CoolingUntil self n e) : (w.Characters self).AttackTimer.IsValid = true := by
  obtain ⟨h0, h1, _⟩ := hcool
  rw [h1]
  simp [FTimerHandle.IsValid]
  omega

/-- One operation while the cooldown of `self` runs and the clock stays at
or before its expiry: the world stays well formed, the cooldown keeps
running, and no request of `self` is accepted. -/
theorem step_during_cooldown (E : Engine) (op : Op) {w : UWorld} (hwf : w.WellFormed)
    {self : CharId} {n : Nat} {e : ℚ} (hcool : w.CoolingUntil self n e)
    (hle : (op.step E w).TimerManager.InternalTime ≤ e) :
    (op.step E w).WellFormed ∧ (op.step E w).CoolingUntil self n e ∧
      AcceptedCount self (op.step E w) = AcceptedCount self w := by
  cases op with
  | Server_Attack j =>
    refine ⟨WellFormed_Server_Attack E j hwf, CoolingUntil_Server_Attack E j hwf hcool, ?_⟩
    simp only [Op.step]
    by_cases hv : (w.Characters j).AttackTimer.IsValid = true
    · rw [Server_Attack_dropped E j w hv]
    · have hacc : (w.Characters j).AttackTimer.IsValid = false := by
        simpa using hv
      have hne : j ≠ self := by
        intro heq
        subst heq
        rw [CoolingUntil_IsValid hcool] at hacc
        exact absurd hacc (by simp)
      rw [AcceptedCount_Server_Attack_accepted E self j w hacc, if_neg hne]
      rfl
  | SeekAndApplyDamage j =>
    exact ⟨WellFormed_of_SameTimersIn (SeekAndApplyDamage_SameTimersIn E j w) hwf,
      CoolingUntil_of_SameTimersIn (SeekAndApplyDamage_SameTimersIn E j w) hcool,
      AcceptedCount_SeekAndApplyDamage E self j w⟩
  | TakeDamage j d causer =>
    exact ⟨WellFormed_of_SameTimersIn (TakeDamage_SameTimersIn E j d causer w) hwf,
      CoolingUntil_of_SameTimersIn (TakeDamage_SameTimersIn E j d causer w) hcool,
      AcceptedCount_TakeDamage E self j d causer w⟩
  | Tick DeltaTime =>
    have hle2 : w.TimerManager.InternalTime + DeltaTime ≤ e := by
      have := Tick_InternalTime E DeltaTime w
      simp only [Op.step] at hle
      rw [this] at hle
      exact hle
    exact ⟨WellFormed_Tick E DeltaTime hwf, CoolingUntil_Tick E DeltaTime hwf hcool hle2,
      AcceptedCount_Tick E self DeltaTime w⟩

theorem run_during_cooldown (E : Engine) (ops : List Op) {self : CharId} {n : Nat} {e : ℚ} :
    ∀ w : UWorld, w.WellFormed → w.CoolingUntil self n e → (∀ op ∈ ops, op.Valid) →
      (run E w ops).TimerManager.InternalTime ≤ e →
      (run E w ops).WellFormed ∧ (run E w ops).CoolingUntil self n e ∧
        AcceptedCount self (run E w ops) = AcceptedCount self w := by
  induction ops with
  | nil => intro w hwf hcool _ _; exact ⟨hwf, hcool, rfl⟩
  | cons op rest ih =>
    intro w hwf hcool hops hle
    have hrest : ∀ o ∈ rest, o.Valid := fun o ho => hops o (List.mem_cons_of_mem _ ho)
    have hstep : (op.step E w).TimerManager.InternalTime ≤ e :=
      (run_InternalTime_le E rest (op.step E w) hrest).trans hle
    obtain ⟨h1, h2, h3⟩ := step_during_cooldown E op hwf hcool hstep
    obtain ⟨g1, g2, g3⟩ := ih (op.step E w) h1 h2 hrest hle
    exact ⟨g1, g2, g3.trans h3⟩


/-- One operation that accepts no request of `self`, started either during
the cooldown of `self` (clock at or before its expiry) or with `self` idle:
afterwards the same alternative holds. -/
theorem step_until_idle (E : Engine) (op : Op) {w : UWorld} {self : CharId} {n : Nat} {e : ℚ}
    (hinv : (w.WellFormed ∧ w.CoolingUntil self n e ∧ w.TimerManager.InternalTime ≤ e) ∨
      (w.Characters self).AttackTimer = ⟨0⟩)
    (hcount : AcceptedCount self (op.step E w) = AcceptedCount self w) :
    ((op.step E w).WellFormed ∧ (op.step E w).CoolingUntil self n e ∧
        (op.step E w).TimerManager.InternalTime ≤ e) ∨
      ((op.step E w).Characters self).AttackTimer = ⟨0⟩ := by
  rcases hinv with ⟨hwf, hcool, hle⟩ | hidle
  · by_cases hstep : (op.step E w).TimerManager.InternalTime ≤ e
    · obtain ⟨h1, h2, _⟩ := step_during_cooldown E op hwf hcool hstep
      exact Or.inl ⟨h1, h2, hstep⟩
    · right
      cases op with
      | Tick DeltaTime =>
        have hlt : e < w.TimerManager.InternalTime + DeltaTime := by
          have := Tick_InternalTime E DeltaTime w
          simp only [Op.step] at hstep
          rw [this] at hstep
          exact not_le.mp hstep
        exact Tick_ends_cooldown E DeltaTime hcool hlt
      | Server_Attack j =>
        rw [step_InternalTime] at hstep
        exact absurd hle hstep
      | SeekAndApplyDamage j =>
        rw [step_InternalTime] at hstep
        exact absurd hle hstep
      | TakeDamage j d causer =>
        rw [step_InternalTime] at hstep
        exact absurd hle hstep
  · right
    cases op with
    | Tick DeltaTime => exact Tick_keeps_idle E DeltaTime hidle
    | Server_Attack j =>
      simp only [Op.step] at hcount ⊢
      by_cases hj : j = self
      · subst hj
        have hacc : (w.Characters j).AttackTimer.IsValid = false :=
          (IsValid_false_iff _).mpr hidle
        rw [AcceptedCount_Server_Attack_accepted E j j w hacc, if_pos rfl] at hcount
        exact absurd hcount (Nat.succ_ne_self _)
      · rw [Server_Attack_AttackTimer_other E j self w (fun h => hj h.symm)]
        exact hidle
    | SeekAndApplyDamage j =>
      simp only [Op.step]
      rw [((SeekAndApplyDamage_SameTimersIn E j w).2 self).1]
      exact hidle
    | TakeDamage j d causer =>
      simp only [Op.step]
      rw [((TakeDamage_SameTimersIn E j d causer w).2 self).1]
      exact hidle

theorem run_until_idle (E : Engine) (ops : List Op) {self : CharId} {n : Nat} {e : ℚ} :
    ∀ w : UWorld,
      ((w.WellFormed ∧ w.CoolingUntil self n e ∧ w.TimerManager.InternalTime ≤ e) ∨
        (w.Characters self).AttackTimer = ⟨0⟩) →
      AcceptedCount self (run E w ops) = AcceptedCount self w →
      (((run E w ops).WellFormed ∧ (run E w ops).CoolingUntil self n e ∧
          (run E w ops).TimerManager.InternalTime ≤ e) ∨
        ((run E w ops).Characters self).AttackTimer = ⟨0⟩) := by
  induction ops with
  | nil => intro w hinv _; exact hinv
  | cons op rest ih =>
    intro w hinv hcount
    have h1 : AcceptedCount self w ≤ AcceptedCount self (op.step E w) :=
      AcceptedCount_step_le E self op w
    have h2 : AcceptedCount self (op.step E w) ≤ AcceptedCount self (run E (op.step E w) rest) :=
      AcceptedCount_run_le E self rest _
    have h3 : AcceptedCount self (run E (op.step E w) rest) = AcceptedCount self w := hcount
    have hstep : AcceptedCount self (op.step E w) = AcceptedCount self w :=
      le_antisymm (h3 ▸ h2) h1
    exact ih (op.step E w) (step_until_idle E op hinv hstep) (h3.trans hstep.symm)

/-! ## One accepted request per cooldown window -/

/-- C4. Let a request of `self` be accepted at clock `t` in a well-formed
world, with `AttackCooldownDuration = c > 0`, and let any operations (of any
characters, with frame times that are not negative) follow. The request
counts as one accepted request. While the clock is before `t + c`, a request
of `self` is dropped (the world is returned unchanged) and no further
request of `self` has been accepted. Once the clock is past `t + c`, and no
further request of `self` has been accepted meanwhile, the next request of
`self` is accepted. -/
theorem Server_Attack_cooldown_window (E : Engine) (self : CharId) (w : UWorld) (ops : List Op)
    (hwf : w.WellFormed) (hidle : (w.Characters self).AttackTimer.IsValid = false)
    (hc : 0 < (w.Characters self).AttackCooldownDuration) (hops : ∀ op ∈ ops, op.Valid) :
    AcceptedCount self (Server_Attack_Implementation E self w) = AcceptedCount self w + 1 ∧
    ((run E (Server_Attack_Implementation E self w) ops).TimerManager.InternalTime <
        w.TimerManager.InternalTime + (w.Characters self).AttackCooldownDuration →
      Server_Attack_Implementation E self (run E (Server_Attack_Implementation E self w) ops) =
        run E (Server_Attack_Implementation E self w) ops ∧
      AcceptedCount self (run E (Server_Attack_Implementation E self w) ops) = AcceptedCount self w + 1) ∧
    (w.TimerManager.InternalTime + (w.Characters self).AttackCooldownDuration <
        (run E (Server_Attack_Implementation E self w) ops).TimerManager.InternalTime →
      AcceptedCount self (run E (Server_Attack_Implementation E self w) ops) = AcceptedCount self w + 1 →
      AcceptedCount self (Server_Attack_Implementation E self (run E (Server_Attack_Implementation E self w) ops)) =
        AcceptedCount self w + 2) := by
  have hfirst : AcceptedCount self (Server_Attack_Implementation E self w) = AcceptedCount self w + 1 := by
    rw [AcceptedCount_Server_Attack_accepted E self self w hidle, if_pos rfl]
  have hwf1 := WellFormed_Server_Attack E self hwf
  have hcool1 := Server_Attack_starts_cooldown E self hwf hidle hc
  have htime1 : (Server_Attack_Implementation E self w).TimerManager.InternalTime ≤
      w.TimerManager.InternalTime + (w.Characters self).AttackCooldownDuration := by
    rw [Server_Attack_InternalTime]
    exact le_add_of_nonneg_right hc.le
  refine ⟨hfirst, ?_, ?_⟩
  · intro hlt
    obtain ⟨_, g2, g3⟩ := run_during_cooldown E ops _ hwf1 hcool1 hops hlt.le
    exact ⟨Server_Attack_dropped E self _ (CoolingUntil_IsValid g2), g3.trans hfirst⟩
  · intro hlt hcount
    have hinv := run_until_idle E ops (Server_Attack_Implementation E self w)
      (Or.inl ⟨hwf1, hcool1, htime1⟩) (hcount.trans hfirst.symm)
    rcases hinv with ⟨_, _, hle⟩ | hz
    · exact absurd hlt (not_lt.mpr hle)
    · rw [AcceptedCount_Server_Attack_accepted E self self _ ((IsValid_false_iff _).mpr hz),
        if_pos rfl, hcount]

/-- C4 at the concrete input of the claim: cooldown 1, requests at clock 0
(accepted), 1/2 (dropped) and 11/10 (accepted). -/
theorem Server_Attack_cooldown_window_witness :
    AcceptedCount 0 (Server_Attack_Implementation Scenario.Physics 0 (Scenario.Arena (Scenario.Fighter 0))) = 1 ∧
    Server_Attack_Implementation Scenario.Physics 0
        (run Scenario.Physics
          (Server_Attack_Implementation Scenario.Physics 0 (Scenario.Arena (Scenario.Fighter 0)))
          [Op.Tick (1 / 2)]) =
      run Scenario.Physics
        (Server_Attack_Implementation Scenario.Physics 0 (Scenario.Arena (Scenario.Fighter 0)))
        [Op.Tick (1 / 2)] ∧
    AcceptedCount 0
        (Server_Attack_Implementation Scenario.Physics 0
          (run Scenario.Physics
            (Server_Attack_Implementation Scenario.Physics 0 (Scenario.Arena (Scenario.Fighter 0)))
            [Op.Tick (1 / 2), Op.Server_Attack 0, Op.Tick (3 / 5)])) = 2 := by
  have hwf : (Scenario.Arena (Scenario.Fighter 0)).WellFormed := by
    refine ⟨?_, ?_, ?_, ?_, ?_⟩
    · intro t ht
      exact absurd ht (List.not_mem_nil t)
    · exact List.nodup_nil
    · intro j
      by_cases hj : j = 0
      · simp [Scenario.Arena, Scenario.Fighter, hj]
      · simp [Scenario.Arena, Scenario.Fighter, hj]
    · intro t ht
      exact absurd ht (List.not_mem_nil t)
    · intro t ht
      exact absurd ht (List.not_mem_nil t)
  have hvalid1 : ∀ op ∈ [Op.Tick (1 / 2)], op.Valid := by
    intro op hop
    rw [List.mem_singleton] at hop
    subst hop
    show (0 : ℚ) ≤ 1 / 2
    norm_num
  have hvalid2 : ∀ op ∈ [Op.Tick (1 / 2), Op.Server_Attack 0, Op.Tick (3 / 5)], op.Valid := by
    intro op hop
    simp only [List.mem_cons, List.mem_singleton, List.not_mem_nil, or_false] at hop
    rcases hop with h | h | h
    · subst h
      show (0 : ℚ) ≤ 1 / 2
      norm_num
    · subst h
      trivial
    · subst h
      show (0 : ℚ) ≤ 3 / 5
      norm_num
  have h1 := Server_Attack_cooldown_window Scenario.Physics 0
    (Scenario.Arena (Scenario.Fighter 0)) [Op.Tick (1 / 2)] hwf (by decide!) (by decide!) hvalid1
  have h2 := Server_Attack_cooldown_window Scenario.Physics 0
    (Scenario.Arena (Scenario.Fighter 0))
    [Op.Tick (1 / 2), Op.Server_Attack 0, Op.Tick (3 / 5)] hwf (by decide!) (by decide!) hvalid2
  exact ⟨h1.1, (h1.2.1 (by decide!)).1, h2.2.2 (by decide!) (by decide!)⟩


/-! ## Order of the notifications -/

/-- C2, evaluated at a failing input. Character `0` has
`ApplyAttackDamageDelay = 0` and faces character `1`, 50 units ahead; its
request is accepted in a fresh world. The calls of that one request, in
order: the cooldown `SetTimer`, the hit-scan, `TakeDamage` of character `1`,
"attack succeeded", and only then "attack attempted". -/
theorem Server_Attack_immediate_succeeded_before_attempted :
    (Server_Attack_Implementation Scenario.Physics 0
        (Scenario.Arena { Scenario.Fighter 0 with ApplyAttackDamageDelay := 0 })).Log =
      [Event.SetTimer 0 TimerName.AttackTimer 1,
       Event.LineTrace 0 ⟨0, 0, 0⟩ ⟨75, 0, 0⟩ 0,
       Event.TakeDamage 1 20,
       Event.OnAttackSuccessful 0 ⟨some (AActor.BattleGameCharacter 1), ⟨50, 0, 0⟩⟩,
       Event.OnAttackAttempted 0] := by
  decide!

/-! ## Geometry of the hit-scan -/

/-- What `TraceForOpponent` traces, for every position and forward vector:
the end point is at the height of the start, its squared horizontal distance
from the start is `75 * 75` times the squared horizontal length of the
forward vector, and the query is made with `this` as the ignored actor. -/
theorem TraceForOpponent_geometry (E : Engine) (self : CharId) (w : UWorld) :
    (TraceEnd (w.Characters self)).Z = (TraceStart (w.Characters self)).Z ∧
    FVector.DistSquaredXY (TraceStart (w.Characters self)) (TraceEnd (w.Characters self)) =
      75 * 75 * ((w.Characters self).ActorForwardVector.X * (w.Characters self).ActorForwardVector.X
        + (w.Characters self).ActorForwardVector.Y * (w.Characters self).ActorForwardVector.Y) ∧
    (TraceForOpponent E self w).1 =
      E.LineTraceSingleByObjectType w (TraceStart (w.Characters self))
        (TraceEnd (w.Characters self)) self := by
  refine ⟨?_, ?_, rfl⟩
  · simp [TraceEnd, TraceStart, FVector.add, FVector.scale]
  · simp only [TraceEnd, TraceStart, FVector.add, FVector.scale, FVector.DistSquaredXY]
    ring

/-- C9, evaluated at a failing input. Character `0` stands at the origin
with the unit forward vector `(3/5, 0, 4/5)` (pitched upwards). The trace
ends at `(45, 0, 0)`: the squared horizontal distance from the start is
`45 * 45`, not `75 * 75`, and character `1`, 50 units straight ahead, is
not hit. -/
theorem TraceForOpponent_pitched_is_short :
    FVector.SizeSquared ⟨3 / 5, 0, 4 / 5⟩ = 1 ∧
    TraceEnd { Scenario.Fighter 0 with ActorForwardVector := ⟨3 / 5, 0, 4 / 5⟩ } = ⟨45, 0, 0⟩ ∧
    FVector.DistSquaredXY
        (TraceStart { Scenario.Fighter 0 with ActorForwardVector := ⟨3 / 5, 0, 4 / 5⟩ })
        (TraceEnd { Scenario.Fighter 0 with ActorForwardVector := ⟨3 / 5, 0, 4 / 5⟩ }) =
      45 * 45 ∧
    FVector.DistSquaredXY
        (TraceStart { Scenario.Fighter 0 with ActorForwardVector := ⟨3 / 5, 0, 4 / 5⟩ })
        (TraceEnd { Scenario.Fighter 0 with ActorForwardVector := ⟨3 / 5, 0, 4 / 5⟩ }) ≠
      75 * 75 ∧
    HitCharacter Scenario.Physics 0
      (Scenario.Arena { Scenario.Fighter 0 with ActorForwardVector := ⟨3 / 5, 0, 4 / 5⟩ }) =
      none := by
  decide!

/-! ## A cooldown of zero -/

theorem Tick_no_timers (E : Engine) (DeltaTime : ℚ) (w : UWorld)
    (h : w.TimerManager.ActiveTimers = []) :
    (Tick E DeltaTime w).Log = w.Log ∧ (Tick E DeltaTime w).Characters = w.Characters ∧
      (Tick E DeltaTime w).TimerManager.ActiveTimers = [] := by
  simp [Tick, FTimerManager.Expired, h]

theorem run_ticks_no_timers (E : Engine) (ticks : List ℚ) :
    ∀ w : UWorld, w.TimerManager.ActiveTimers = [] →
      (run E w (ticks.map Op.Tick)).Log = w.Log ∧
        (run E w (ticks.map Op.Tick)).Characters = w.Characters := by
  induction ticks with
  | nil => intro w _; exact ⟨rfl, rfl⟩
  | cons d rest ih =>
    intro w h
    obtain ⟨h1, h2, h3⟩ := Tick_no_timers E d w h
    obtain ⟨g1, g2⟩ := ih (Tick E d w) h3
    exact ⟨g1.trans h1, g2.trans h2⟩

/-- C10, evaluated at a failing input. Character `0` has
`AttackCooldownDuration = 0` and `ApplyAttackDamageDelay = 3/10`, and faces
character `1`. Its request in a fresh world is accepted and sets the damage
timer with rate 0; whatever ticks follow, the log holds the two `SetTimer`
calls and "attack attempted" and nothing else (no hit-scan ever runs), and
character `1` keeps its 100 health. -/
theorem Server_Attack_zero_cooldown_never_resolves (ticks : List ℚ) :
    (run Scenario.Physics
        (Server_Attack_Implementation Scenario.Physics 0
          (Scenario.Arena { Scenario.Fighter 0 with AttackCooldownDuration := 0 }))
        (ticks.map Op.Tick)).Log =
      [Event.SetTimer 0 TimerName.AttackTimer 0,
       Event.SetTimer 0 TimerName.ApplyAttackDamageTimer 0,
       Event.OnAttackAttempted 0] ∧
    ((run Scenario.Physics
        (Server_Attack_Implementation Scenario.Physics 0
          (Scenario.Arena { Scenario.Fighter 0 with AttackCooldownDuration := 0 }))
        (ticks.map Op.Tick)).Characters 1).Health = 100 := by
  have h0 : (Server_Attack_Implementation Scenario.Physics 0
      (Scenario.Arena { Scenario.Fighter 0 with
        AttackCooldownDuration := 0 })).TimerManager.ActiveTimers = [] := by
    decide!
  obtain ⟨h1, h2⟩ := run_ticks_no_timers Scenario.Physics ticks _ h0
  rw [h1, h2]
  constructor
  · decide!
  · decide!


end BattleGame
